import Mathlib

/-!
# Verification of the `pal` Vulkan backend's synchronization core

Shallow embedding of the command-stream translator of the `pal` graphics
library (Rust), faithful to `src/backends/vulkan/src`:

* `util/usage.rs` — `GlobalResourceUsage`, `PipelineTracker`, `UsageScope`;
* `util/mod.rs` — `rank_pipeline_stage`;
* `util/resource_state.rs` — `ResourceState`, `LatestUsage`;
* `util/pipeline_tracker.rs` — legacy in-submission tracker;
* `util/garbage_collector.rs` — timeline garbage collector;
* `util/tracking.rs` — `track_dispatch`;
* `queue.rs` — `VkQueue::submit`;
* `surface.rs`, `lib.rs` — surface update/acquire/present, `map_memory`.

Vulkan bitmask values are taken from the Vulkan specification (the `ash::vk`
constants the code uses).  Bitmasks are `Nat` with `&&&`/`|||`; machine
overflow is irrelevant here (all masks fit in 32 bits, all timeline values
are used only with `≤`/`+ 1` far below `2^64`).

HashMaps keyed by handles are modelled either as total functions into
`Option` (insert/remove maps) or as association lists with a replace-on-insert
update (barrier accumulation maps); iteration order of Rust's HashMap is
unspecified, so scopes are passed as explicit lists.
-/

namespace Pal

/-! ## Vulkan constants (`ash::vk`) -/

abbrev Flags := Nat

/-- `vk::AccessFlags` bit values. -/
def INDIRECT_COMMAND_READ : Flags := 0x1
def INDEX_READ : Flags := 0x2
def VERTEX_ATTRIBUTE_READ : Flags := 0x4
def UNIFORM_READ : Flags := 0x8
def SHADER_READ : Flags := 0x20
def SHADER_WRITE : Flags := 0x40
def COLOR_ATTACHMENT_READ : Flags := 0x80
def COLOR_ATTACHMENT_WRITE : Flags := 0x100
def DEPTH_STENCIL_ATTACHMENT_READ : Flags := 0x200
def DEPTH_STENCIL_ATTACHMENT_WRITE : Flags := 0x400
def TRANSFER_READ : Flags := 0x800
def TRANSFER_WRITE : Flags := 0x1000
def MEMORY_READ : Flags := 0x8000
def ACCESS_NONE : Flags := 0

/-- `vk::PipelineStageFlags` bit values. -/
def TOP_OF_PIPE : Flags := 0x1
def DRAW_INDIRECT : Flags := 0x2
def VERTEX_INPUT : Flags := 0x4
def VERTEX_SHADER : Flags := 0x8
def TESSELLATION_CONTROL_SHADER : Flags := 0x10
def TESSELLATION_EVALUATION_SHADER : Flags := 0x20
def GEOMETRY_SHADER : Flags := 0x40
def FRAGMENT_SHADER : Flags := 0x80
def EARLY_FRAGMENT_TESTS : Flags := 0x100
def LATE_FRAGMENT_TESTS : Flags := 0x200
def COLOR_ATTACHMENT_OUTPUT : Flags := 0x400
def COMPUTE_SHADER : Flags := 0x800
def TRANSFER : Flags := 0x1000
def BOTTOM_OF_PIPE : Flags := 0x2000

/-- `vk::ImageLayout` values (the ones the code uses). -/
def UNDEFINED : Nat := 0
def COLOR_ATTACHMENT_OPTIMAL : Nat := 2
def DEPTH_STENCIL_ATTACHMENT_OPTIMAL : Nat := 3
def SHADER_READ_ONLY_OPTIMAL : Nat := 5
def TRANSFER_SRC_OPTIMAL : Nat := 6
def TRANSFER_DST_OPTIMAL : Nat := 7

/-- Rust `bitflags`' `a.contains(b)`: every bit of `b` is set in `a`. -/
def flagsContain (a b : Flags) : Bool := a &&& b = b

/-- `api::types::QueueType`. -/
inductive QueueType where
  | Main
  | Transfer
  | Compute
  | Present
deriving DecidableEq, Repr

/-! ## `util/mod.rs` -/

/-- `rank_pipeline_stage` (`util/mod.rs`): exact match on single-bit stage
flags, `u32::MAX` otherwise. -/
def rank_pipeline_stage (stage : Flags) : Nat :=
  if stage = TOP_OF_PIPE then 0
  else if stage = DRAW_INDIRECT then 1
  else if stage = VERTEX_INPUT then 2
  else if stage = VERTEX_SHADER then 3
  else if stage = TESSELLATION_CONTROL_SHADER then 4
  else if stage = TESSELLATION_EVALUATION_SHADER then 5
  else if stage = GEOMETRY_SHADER then 6
  else if stage = FRAGMENT_SHADER then 7
  else if stage = EARLY_FRAGMENT_TESTS then 8
  else if stage = LATE_FRAGMENT_TESTS then 9
  else if stage = COLOR_ATTACHMENT_OUTPUT then 10
  else if stage = TRANSFER then 11
  else if stage = COMPUTE_SHADER then 12
  else if stage = BOTTOM_OF_PIPE then 13
  else 4294967295

/-! ## `util/usage.rs` — data model -/

/-- `QueueUsage` (`util/usage.rs`). -/
structure QueueUsage where
  queue : QueueType
  timeline_value : Nat
deriving DecidableEq, Repr

/-- `SubResourceUsage` (`util/usage.rs`). `layout` is unused by buffers. -/
structure SubResourceUsage where
  access : Flags
  stage : Flags
  layout : Nat
deriving DecidableEq, Repr

instance : Inhabited SubResourceUsage :=
  ⟨{ access := 0, stage := 0, layout := 0 }⟩

/-- `SubResource` (`util/usage.rs`).  Handles are numeric ids. -/
inductive SubResource where
  | buffer (buffer : Nat) (array_elem : Nat)
  | texture (texture : Nat) (aspect_mask : Flags) (array_elem : Nat) (mip_level : Nat)
deriving DecidableEq, Repr

/-- `GlobalResourceUsage` (`util/usage.rs`): the process-wide registry.
The `sets` map is omitted (no claim touches it).  `image_layouts` stores
`Option`; `register_layout` reads it with `unwrap_or_default()`, i.e.
absent means `UNDEFINED`. -/
structure GlobalResourceUsage where
  buffers : Nat × Nat → Option QueueUsage
  images : Nat × Nat → Option QueueUsage
  image_layouts : Nat × Nat × Nat → Option Nat

/-- `GlobalResourceUsage::register_buffer`: insert (or remove on `None`) and
return the previous entry. -/
def GlobalResourceUsage.register_buffer (g : GlobalResourceUsage) (buffer array_elem : Nat)
    (usage : Option QueueUsage) : Option QueueUsage × GlobalResourceUsage :=
  (g.buffers (buffer, array_elem),
   { g with buffers := fun k => if k = (buffer, array_elem) then usage else g.buffers k })

/-- `GlobalResourceUsage::register_image`. -/
def GlobalResourceUsage.register_image (g : GlobalResourceUsage) (image array_elem : Nat)
    (usage : Option QueueUsage) : Option QueueUsage × GlobalResourceUsage :=
  (g.images (image, array_elem),
   { g with images := fun k => if k = (image, array_elem) then usage else g.images k })

/-- `GlobalResourceUsage::register_layout`: insert the new layout, return the
previous one or `UNDEFINED` (`unwrap_or_default`). -/
def GlobalResourceUsage.register_layout (g : GlobalResourceUsage)
    (image array_elem mip_level layout : Nat) : Nat × GlobalResourceUsage :=
  ((g.image_layouts (image, array_elem, mip_level)).getD UNDEFINED,
   { g with image_layouts :=
      fun k => if k = (image, array_elem, mip_level) then some layout else g.image_layouts k })

/-! ## `UsageScope` and `use_resource` -/

/-- A `UsageScope`'s `usages` map, as an association list with at most one
entry per `SubResource` (the Rust `FxHashMap`). -/
abbrev Scope := List (SubResource × SubResourceUsage)

/-- Key lookup in an association list (Rust `HashMap::get`). -/
def lookupKey {κ α : Type} [DecidableEq κ] : List (κ × α) → κ → Option α
  | [], _ => none
  | p :: t, k => if p.1 = k then some p.2 else lookupKey t k

/-- Number of entries stored under a key. -/
def countKey {κ α : Type} [DecidableEq κ] : List (κ × α) → κ → Nat
  | [], _ => 0
  | p :: t, k => (if p.1 = k then 1 else 0) + countKey t k

/-- Replace-on-insert for an association list (Rust `HashMap::insert`,
keeping exactly one entry per key). -/
def upsert {κ α : Type} [DecidableEq κ] : List (κ × α) → κ → α → List (κ × α)
  | [], k, a => [(k, a)]
  | p :: t, k, a => if p.1 = k then upsert t k a else p :: upsert t k a

/-- `UsageScope::use_resource` (`util/usage.rs`).  `none` models the
`assert!` panic: the existing entry's layout must be `UNDEFINED` or equal to
the requested one ("an image can only have one layout per scope").
Otherwise the access and stage are OR-combined and the layout overwritten. -/
def use_resource (scope : Scope) (subresource : SubResource) (usage : SubResourceUsage) :
    Option Scope :=
  let entry := (lookupKey scope subresource).getD default
  if entry.layout = UNDEFINED ∨ entry.layout = usage.layout then
    some (upsert scope subresource
      { access := entry.access ||| usage.access
        stage := entry.stage ||| usage.stage
        layout := usage.layout })
  else
    none

/-! ## `PipelineTracker` (`util/usage.rs`) -/

/-- Per-submission pipeline tracker (`util/usage.rs`).  `usages` is the
in-submission usage map, `queues` the per-source-queue wait-stage hints
accumulated for the inter-queue synchronizer. -/
structure PipelineTracker where
  global : GlobalResourceUsage
  queue_ty : QueueType
  next_value : Nat
  usages : SubResource → Option SubResourceUsage
  queues : QueueType → Option Flags

/-- `vk::BufferMemoryBarrier` as built by `submit` (offset 0, size
`WHOLE_SIZE` and ignored queue families are constants and omitted). -/
structure BufferMemoryBarrier where
  src_access_mask : Flags
  dst_access_mask : Flags
  buffer : Nat
deriving DecidableEq, Repr

/-- `vk::ImageMemoryBarrier` as built by `submit` (single-mip, single-layer
subresource range; ignored queue families omitted). -/
structure ImageMemoryBarrier where
  src_access_mask : Flags
  dst_access_mask : Flags
  old_layout : Nat
  new_layout : Nat
  image : Nat
  aspect_mask : Flags
  base_mip_level : Nat
  base_array_layer : Nat
deriving DecidableEq, Repr

/-- `PipelineBarrier` (`util/usage.rs`).  The barrier maps keep their
`FxHashMap` keys — `(buffer, array_elem)` and `(image, array_elem, mip)` —
the emitted `Vec`s are their value lists. -/
structure PipelineBarrier where
  src_stage : Flags
  dst_stage : Flags
  buffer_barriers : List ((Nat × Nat) × BufferMemoryBarrier)
  image_barriers : List ((Nat × Nat × Nat) × ImageMemoryBarrier)
deriving DecidableEq, Repr

/-- The `read_accesses` mask enumerated at the top of
`PipelineTracker::submit`. -/
def read_accesses : Flags :=
  MEMORY_READ ||| SHADER_READ ||| UNIFORM_READ ||| TRANSFER_READ |||
  COLOR_ATTACHMENT_READ ||| INDIRECT_COMMAND_READ ||| VERTEX_ATTRIBUTE_READ |||
  INDEX_READ ||| DEPTH_STENCIL_ATTACHMENT_READ

/-- The `new_stage` selection chain of `PipelineTracker::submit`: the chain
tests `BOTTOM_OF_PIPE` first and `DRAW_INDIRECT` last, so it returns the
**latest**-rank single stage contained in the usage's stage mask
(`TOP_OF_PIPE` when none of the recognized bits is set). -/
def select_wait_stage (stage : Flags) : Flags :=
  if flagsContain stage BOTTOM_OF_PIPE then BOTTOM_OF_PIPE
  else if flagsContain stage COMPUTE_SHADER then COMPUTE_SHADER
  else if flagsContain stage TRANSFER then TRANSFER
  else if flagsContain stage COLOR_ATTACHMENT_OUTPUT then COLOR_ATTACHMENT_OUTPUT
  else if flagsContain stage LATE_FRAGMENT_TESTS then LATE_FRAGMENT_TESTS
  else if flagsContain stage EARLY_FRAGMENT_TESTS then EARLY_FRAGMENT_TESTS
  else if flagsContain stage FRAGMENT_SHADER then FRAGMENT_SHADER
  else if flagsContain stage GEOMETRY_SHADER then GEOMETRY_SHADER
  else if flagsContain stage TESSELLATION_EVALUATION_SHADER then TESSELLATION_EVALUATION_SHADER
  else if flagsContain stage TESSELLATION_CONTROL_SHADER then TESSELLATION_CONTROL_SHADER
  else if flagsContain stage VERTEX_SHADER then VERTEX_SHADER
  else if flagsContain stage VERTEX_INPUT then VERTEX_INPUT
  else if flagsContain stage DRAW_INDIRECT then DRAW_INDIRECT
  else TOP_OF_PIPE

/-- The registry consultation at the head of the loop body of
`PipelineTracker::submit`: register the new `QueueUsage`, returning the
previous queue usage and — for textures — the previous layout (`UNDEFINED`
for buffers). -/
def registerScopeResource (g : GlobalResourceUsage) (resc_usage : QueueUsage)
    (resource : SubResource) (usage : SubResourceUsage) :
    Option QueueUsage × Nat × GlobalResourceUsage :=
  match resource with
  | .buffer buffer array_elem =>
      let r := g.register_buffer buffer array_elem (some resc_usage)
      (r.1, UNDEFINED, r.2)
  | .texture texture _ array_elem mip_level =>
      let r := g.register_image texture array_elem (some resc_usage)
      let r2 := r.2.register_layout texture array_elem mip_level usage.layout
      (r.1, r2.1, r2.2)

/-- The "check if this resource was last used by a queue other than us" block
of `PipelineTracker::submit`: record the selected stage for the source queue,
keeping the minimum-rank entry (inserting `BOTTOM_OF_PIPE` first, as
`or_insert` does). -/
def updateWaitQueues (queues : QueueType → Option Flags) (queue_ty : QueueType)
    (old_queue_usage : Option QueueUsage) (stage : Flags) : QueueType → Option Flags :=
  match old_queue_usage with
  | some old =>
      if old.queue ≠ queue_ty then
        let new_stage := select_wait_stage stage
        let entry := (queues old.queue).getD BOTTOM_OF_PIPE
        fun q => if q = old.queue then
            some (if rank_pipeline_stage new_stage < rank_pipeline_stage entry
                  then new_stage else entry)
          else queues q
      else queues
  | none => queues

/-- The barrier decision of `PipelineTracker::submit`: a barrier is needed on
a layout mismatch, or when the previous in-submission access paired with the
new one is not read-after-read; the source access/stage come from the
previous in-submission usage (`NONE`/`TOP_OF_PIPE` when there is none). -/
def barrierDecision (prev : Option SubResourceUsage) (old_layout : Nat)
    (usage : SubResourceUsage) : Bool × Flags × Flags :=
  let needs0 : Bool := old_layout ≠ usage.layout
  match prev with
  | some old =>
      (needs0 || !(flagsContain read_accesses old.access &&
                   flagsContain read_accesses usage.access),
       old.access, old.stage)
  | none => (needs0, ACCESS_NONE, TOP_OF_PIPE)

/-- Barrier registration of `PipelineTracker::submit`: insert the buffer or
image memory barrier under the sub-resource's key and OR the stages into the
pipeline barrier. -/
def accumulateBarrier (acc : PipelineBarrier) (resource : SubResource)
    (usage : SubResourceUsage) (old_layout : Nat) (src_access src_stage : Flags) :
    PipelineBarrier :=
  match resource with
  | .buffer buffer array_elem =>
      { acc with
        buffer_barriers := upsert acc.buffer_barriers (buffer, array_elem)
          { src_access_mask := src_access
            dst_access_mask := usage.access
            buffer := buffer }
        dst_stage := acc.dst_stage ||| usage.stage
        src_stage := acc.src_stage ||| src_stage }
  | .texture texture aspect_mask array_elem mip_level =>
      { acc with
        image_barriers := upsert acc.image_barriers (texture, array_elem, mip_level)
          { src_access_mask := src_access
            dst_access_mask := usage.access
            old_layout := old_layout
            new_layout := usage.layout
            image := texture
            aspect_mask := aspect_mask
            base_mip_level := mip_level
            base_array_layer := array_elem }
        dst_stage := acc.dst_stage ||| usage.stage
        src_stage := acc.src_stage ||| src_stage }

/-- One iteration of the `for (resource, usage) in scope.usages` loop of
`PipelineTracker::submit`: registry update, cross-queue wait-stage hint,
barrier decision, in-submission usage update, barrier accumulation. -/
def submitStep (st : PipelineTracker × PipelineBarrier)
    (ru : SubResource × SubResourceUsage) : PipelineTracker × PipelineBarrier :=
  let t := st.1
  let acc := st.2
  let resource := ru.1
  let usage := ru.2
  let resc_usage : QueueUsage := { queue := t.queue_ty, timeline_value := t.next_value }
  let step1 := registerScopeResource t.global resc_usage resource usage
  let old_queue_usage := step1.1
  let old_layout := step1.2.1
  let global' := step1.2.2
  let queues' := updateWaitQueues t.queues t.queue_ty old_queue_usage usage.stage
  let step2 := barrierDecision (t.usages resource) old_layout usage
  let needs_barrier := step2.1
  let src_access := step2.2.1
  let src_stage := step2.2.2
  let usages' : SubResource → Option SubResourceUsage :=
    fun x => if x = resource then some usage else t.usages x
  let acc' : PipelineBarrier :=
    if needs_barrier then accumulateBarrier acc resource usage old_layout src_access src_stage
    else acc
  ({ t with global := global', queues := queues', usages := usages' }, acc')

/-- `PipelineTracker::submit` (`util/usage.rs`): analyze every usage of the
scope, then return the barrier only if some buffer or image barrier was
registered. -/
def PipelineTracker.submit (t : PipelineTracker) (scope : Scope) :
    PipelineTracker × Option PipelineBarrier :=
  let r := scope.foldl submitStep
    (t, { src_stage := 0, dst_stage := 0, buffer_barriers := [], image_barriers := [] })
  (r.1,
   if !r.2.image_barriers.isEmpty || !r.2.buffer_barriers.isEmpty then some r.2 else none)

/-! ## Semaphore tracker (`util/semaphores.rs`, spec-modelled) -/

/-- `WaitInfo` (`util/semaphores.rs`): a timeline value (`none` for binary
semaphores) and the wait stage. -/
structure WaitInfo where
  value : Option Nat
  stage : Flags
deriving DecidableEq, Repr

/-- Modelled from the spec: the file `util/semaphores.rs` is declared in
`util/mod.rs` but missing from the source tree.  §4.2: "A two-map
`waits: semaphore → {max value, earliest stage}`, `signals: semaphore →
optional value`."  Semaphores are numeric handles; the maps are association
lists so they can be enumerated at submit time. -/
structure SemaphoreTracker where
  waits : List (Nat × WaitInfo)
  signals : List (Nat × Option Nat)
deriving DecidableEq, Repr

/-- Modelled from the spec (§4.2): "When multiple waits target one
semaphore, keep the maximum value and the earliest stage"; a `none`
(binary) value merged with a timeline value keeps the timeline value. -/
def SemaphoreTracker.register_wait (t : SemaphoreTracker) (semaphore : Nat)
    (info : WaitInfo) : SemaphoreTracker :=
  match lookupKey t.waits semaphore with
  | none => { t with waits := upsert t.waits semaphore info }
  | some old =>
      let value : Option Nat :=
        match old.value, info.value with
        | some a, some b => some (max a b)
        | some a, none => some a
        | none, b => b
      let stage :=
        if rank_pipeline_stage info.stage < rank_pipeline_stage old.stage
        then info.stage else old.stage
      { t with waits := upsert t.waits semaphore { value := value, stage := stage } }

/-- Modelled from the spec (§4.2): record a signal value for a semaphore
(`none` for binary semaphores). -/
def SemaphoreTracker.register_signal (t : SemaphoreTracker) (semaphore : Nat)
    (value : Option Nat) : SemaphoreTracker :=
  { t with signals := upsert t.signals semaphore value }

/-- Modelled from the spec (§4.5 step 7): for every source queue the
pipeline tracker collected a wait-stage hint for, add a timeline wait on
that queue's semaphore for that queue's current target value. -/
def addWaitHints (tr : SemaphoreTracker) (queues : QueueType → Option Flags)
    (semOf targetOf : QueueType → Nat) : SemaphoreTracker :=
  [QueueType.Main, QueueType.Transfer, QueueType.Compute, QueueType.Present].foldl
    (fun acc q =>
      match queues q with
      | some stage => acc.register_wait (semOf q) { value := some (targetOf q), stage := stage }
      | none => acc)
    tr

/-! ## `queue.rs` — `VkQueue` -/

/-- `VkQueue` (`queue.rs`): the native queue handle and command pool are
irrelevant here; `free` is the FIFO of `(command_buffer, target)` pairs. -/
structure VkQueue where
  semaphore : Nat
  free : List (Nat × Nat)
  last_sync : Nat
  target_value : Nat
deriving DecidableEq, Repr

/-- The wait/signal arrays handed to `vkQueueSubmit` (including the
`TimelineSemaphoreSubmitInfo` values). -/
structure SubmitInfo where
  wait_semaphores : List Nat
  wait_values : List Nat
  wait_stages : List Flags
  signal_semaphores : List Nat
  signal_values : List Nat
deriving DecidableEq, Repr

/-- `VkQueue::submit` (`queue.rs`): always wait on the own semaphore at the
current `target_value` (stage `TOP_OF_PIPE`) and signal `target_value + 1`;
increment `target_value`; push `(command_buffer, new target)` onto the free
FIFO; the submit info lists the own semaphore's signal first
("Always signal our own semaphore") followed by the tracker's entries,
with `unwrap_or_default()` for binary (`none`) values. -/
def VkQueue.submit (q : VkQueue) (command_buffer : Nat) (tracker : SemaphoreTracker) :
    VkQueue × SubmitInfo :=
  let tracker1 := tracker.register_wait q.semaphore
    { value := some q.target_value, stage := TOP_OF_PIPE }
  let tracker2 := tracker1.register_signal q.semaphore (some (q.target_value + 1))
  let target' := q.target_value + 1
  let free' := q.free ++ [(command_buffer, target')]
  ({ q with free := free', target_value := target' },
   { wait_semaphores := tracker2.waits.map (·.1)
     wait_values := tracker2.waits.map (fun p => (p.2.value).getD 0)
     wait_stages := tracker2.waits.map (fun p => p.2.stage)
     signal_semaphores := q.semaphore :: tracker2.signals.map (·.1)
     signal_values := target' :: tracker2.signals.map (fun p => p.2.getD 0) })

/-! ## `util/resource_state.rs` -/

/-- `LatestUsage` (`util/resource_state.rs`). -/
structure LatestUsage where
  queue : QueueType
  value : Nat
  layout : Nat
deriving DecidableEq, Repr

/-- `ResourceState` (`util/resource_state.rs`): buffer/image sub-resource →
latest usage. -/
structure ResourceState where
  buffers : Nat × Nat → Option LatestUsage
  images : Nat × Nat → Option LatestUsage

/-- `ResourceState::set_buffer`: insert (or remove on `None`), returning the
previous entry. -/
def ResourceState.set_buffer (s : ResourceState) (buffer array_elem : Nat)
    (usage : Option LatestUsage) : Option LatestUsage × ResourceState :=
  (s.buffers (buffer, array_elem),
   { s with buffers := fun k => if k = (buffer, array_elem) then usage else s.buffers k })

/-- `LatestUsage::wait_if_needed` (`util/resource_state.rs`): when the
recorded queue differs from the submitting queue, register a wait on the
recorded queue's semaphore at that queue's **current target timeline
value** (not the recorded value) at the given stage. -/
def LatestUsage.wait_if_needed (lu : LatestUsage) (tracker : SemaphoreTracker)
    (new_queue : QueueType) (stage : Flags)
    (main transfer compute present : VkQueue) : SemaphoreTracker :=
  if lu.queue ≠ new_queue then
    let sv : Nat × Nat :=
      match lu.queue with
      | .Main => (main.semaphore, main.target_value)
      | .Transfer => (transfer.semaphore, transfer.target_value)
      | .Compute => (compute.semaphore, compute.target_value)
      | .Present => (present.semaphore, present.target_value)
    tracker.register_wait sv.1 { value := some sv.2, stage := stage }
  else tracker

/-! ## `util/garbage_collector.rs` -/

/-- `TimelineValues` (`util/garbage_collector.rs`). -/
structure TimelineValues where
  main : Nat
  transfer : Nat
  compute : Nat
deriving DecidableEq, Repr

/-- Modelled from the spec: `BufferRefCounter` lives in `buffer.rs`, whose
version in the source tree predates it (the garbage collector imports it
but the definition is missing).  §4.4: the collector destroys a
buffer only when "the associated reference counter has strong count == 1";
the garbage record carries the strong count observed at sweep time. -/
def ref_counter_is_last (strong_count : Nat) : Bool := strong_count = 1

/-- `Garbage` (`util/garbage_collector.rs`).  Buffer garbage carries the
allocation and the cloned reference counter (its strong count here). -/
inductive Garbage where
  | pipelineLayout (layout : Nat)
  | pipeline (p : Nat)
  | buffer (buffer : Nat) (allocation : Nat) (ref_strong_count : Nat)
  | descriptorSet (set : Nat) (layout : Nat)
deriving DecidableEq, Repr

/-- `ToDestroy` (`util/garbage_collector.rs`). -/
structure ToDestroy where
  garbage : Garbage
  values : TimelineValues
deriving DecidableEq, Repr

/-- The marking test of `GarbageCollector::cleanup`: buffer garbage whose
reference counter is not the last handle is skipped (`continue`); otherwise
an item is marked when its stamped targets for all three queues are `≤` the
current counters. -/
def gcMarked (current : TimelineValues) (td : ToDestroy) : Bool :=
  match td.garbage with
  | .buffer _ _ strong =>
      if !ref_counter_is_last strong then false
      else decide (td.values.main ≤ current.main) &&
           decide (td.values.transfer ≤ current.transfer) &&
           decide (td.values.compute ≤ current.compute)
  | _ =>
      decide (td.values.main ≤ current.main) &&
      decide (td.values.transfer ≤ current.transfer) &&
      decide (td.values.compute ≤ current.compute)

/-- The ascending index list collected by the marking loop of `cleanup`
(`for (i, garbage) in to_destroy.iter().enumerate()` pushing `i` when
marked; enumeration order makes it sorted, so the `sort_unstable` is a
no-op). -/
def gcMarkedIdxs (current : TimelineValues) : List ToDestroy → List Nat
  | [] => []
  | a :: l => (if gcMarked current a then [0] else []) ++
      (gcMarkedIdxs current l).map (· + 1)

/-- Removal of the marked indices from the retained list, highest index
first (`for i in marked.into_iter().rev() { to_destroy.remove(i) }`). -/
def gcRemoveDesc (l : List ToDestroy) (idxs : List Nat) : List ToDestroy :=
  idxs.foldl (fun acc i => acc.eraseIdx i) l

/-- `GarbageCollector::cleanup` (`util/garbage_collector.rs`): stamp every
incoming garbage item with the `target` snapshot, mark eligible items,
remove them from the retained list (in descending index order) and destroy
them in that order.  Returns `(retained, destroyed-in-order)`. -/
def gcCleanup (to_destroy : List ToDestroy) (incoming : List Garbage)
    (current target : TimelineValues) : List ToDestroy × List ToDestroy :=
  let stamped := to_destroy ++ incoming.map (fun g => { garbage := g, values := target })
  let marked := gcMarkedIdxs current stamped
  (gcRemoveDesc stamped marked.reverse,
   marked.reverse.filterMap (fun i => stamped.get? i))

/-! ## `util/tracking.rs` — `track_dispatch` -/

/-- The command IR (`api::command_buffer::Command`), restricted to the
constructors `track_dispatch` distinguishes; descriptor sets are numeric
ids, a compute pipeline carries its layout count
(`pipeline.layouts().len()`). -/
inductive Cmd where
  | bindComputePipeline (layoutCount : Nat)
  | beginComputePass
  | bindDescriptorSets (first : Nat) (sets : List Nat)
  | dispatch
  | other
deriving DecidableEq, Repr

/-- The backward walk at the head of `track_dispatch`: from index `i`
downward, the nearest `BindComputePipeline` (with its layout count), and
`none` when a `BeginComputePass` — or the start of the list — is reached
first. -/
def findBoundPipeline (cmds : List Cmd) : Nat → Option (Nat × Nat)
  | 0 =>
      match cmds.get? 0 with
      | some (Cmd.bindComputePipeline n) => some (0, n)
      | _ => none
  | i + 1 =>
      match cmds.get? (i + 1) with
      | some (Cmd.bindComputePipeline n) => some (i + 1, n)
      | some Cmd.beginComputePass => none
      | _ => findBoundPipeline cmds i

/-- The inner slot loop of `track_dispatch`'s gathering pass: for slots
`first, first+1, …` in order, gather a set when its slot is not yet bound,
mark the slot and bump `total_bound`.  State is `(bound, total_bound,
gathered)`. -/
def bindSetsLoop : List Bool → Nat → List (Nat × Nat) → Nat → List Nat →
    List Bool × Nat × List (Nat × Nat)
  | bound, total, gathered, _, [] => (bound, total, gathered)
  | bound, total, gathered, slot, s :: rest =>
      if bound.getD slot false then bindSetsLoop bound total gathered (slot + 1) rest
      else bindSetsLoop (bound.set slot true) (total + 1) (gathered ++ [(slot, s)])
        (slot + 1) rest

/-- The reversed command walk of `track_dispatch`'s gathering pass, from
position `j` down `steps` further positions: break early when every slot is
bound (`total_bound == bound.len()`), process `BindDescriptorSets`
commands, skip everything else. -/
def gatherLoop (cmds : List Cmd) : Nat → Nat → List Bool × Nat × List (Nat × Nat) →
    List Bool × Nat × List (Nat × Nat)
  | steps, j, st =>
      if st.2.1 = st.1.length then st
      else
        let st2 :=
          match cmds.get? j with
          | some (Cmd.bindDescriptorSets first sets) =>
              bindSetsLoop st.1 st.2.1 st.2.2 first sets
          | _ => st
        match steps with
        | 0 => st2
        | steps' + 1 => gatherLoop cmds steps' (j - 1) st2

/-- The `(slot, set)` pairs gathered by `track_dispatch` once the bound
pipeline at `idx` (with `n` layout slots) has been located, walking from
`index` back to `idx`. -/
def trackGathered (cmds : List Cmd) (idx n index : Nat) : List (Nat × Nat) :=
  (gatherLoop cmds (index - idx) index (List.replicate n false, 0, [])).2.2

/-- `track_dispatch` (`util/tracking.rs`), reduced to the descriptor-set
gathering it performs: `none` when the function returns without submitting
a scope (no bound pipeline found, or `BeginComputePass` hit first), and the
gathered `(slot, set)` list otherwise; the submitted usage scope is built
from exactly these sets. -/
def track_dispatch (cmds : List Cmd) (index : Nat) : Option (List (Nat × Nat)) :=
  match findBoundPipeline cmds index with
  | none => none
  | some (idx, n) => some (trackGathered cmds idx n index)

/-- The set a `BindDescriptorSets{first, sets}` command binds to `slot`
when sets are laid out at consecutive slots `first, first+1, …` (and `none`
for uncovered slots). -/
def covFrom : Nat → List Nat → Nat → Option Nat
  | _, [], _ => none
  | slot0, s :: rest, sl => if sl = slot0 then some s else covFrom (slot0 + 1) rest sl

/-- The set the command at position `j` binds to `slot` (`none` unless it
is a covering `BindDescriptorSets`). -/
def coveringSetAt (cmds : List Cmd) (j slot : Nat) : Option Nat :=
  match cmds.get? j with
  | some (Cmd.bindDescriptorSets first sets) => covFrom first sets slot
  | _ => none

/-- Scan from position `j` downward through `steps + 1` positions for the
most recent cover of `slot`. -/
def mostRecentCovering (cmds : List Cmd) : Nat → Nat → Nat → Option Nat
  | 0, j, slot => coveringSetAt cmds j slot
  | steps + 1, j, slot =>
      match coveringSetAt cmds j slot with
      | some s => some s
      | none => mostRecentCovering cmds steps (j - 1) slot

/-! ## `surface.rs` and `lib.rs` -/

/-- `SurfaceImageSemaphores` (`surface.rs`). -/
structure SurfaceImageSemaphores where
  available : Nat
  presentable : Nat
deriving DecidableEq, Repr

/-- `Surface` (`surface.rs`): swapchain state.  `images` are
`(image, view)` pairs. -/
structure Surface where
  surface : Nat
  swapchain : Nat
  format : Nat
  resolution : Nat × Nat
  images : List (Nat × Nat)
  semaphores : List SurfaceImageSemaphores
  next_semaphore : Nat
  images_acquired : Nat
deriving DecidableEq, Repr

/-- `SurfaceImage` (`surface.rs`): `used` is the "drawn" flag. -/
structure SurfaceImage where
  surface : Nat
  dims : Nat × Nat
  image : Nat
  view : Nat
  format : Nat
  image_idx : Nat
  semaphores : SurfaceImageSemaphores
  used : Bool
deriving DecidableEq, Repr

/-- `SurfaceImageAcquireError` / `SurfaceUpdateError` /
`SurfacePresentFailure` / `SurfacePresentSuccess` (from the `api` crate). -/
inductive SurfaceImageAcquireError where
  | NoImages
  | Other
deriving DecidableEq, Repr

inductive SurfaceUpdateError where
  | ImagePending
  | OtherUpdateError
deriving DecidableEq, Repr

inductive SurfacePresentFailure where
  | BadImage
  | NoRender
deriving DecidableEq, Repr

inductive SurfacePresentSuccess where
  | Ok
  | Invalidated
deriving DecidableEq, Repr

/-- `Surface::acquire_image` (`surface.rs`): refuse with `NoImages` when
every image is handed out, advance the rolling semaphore index, acquire the
next image (`driver_image_idx` stands for the index the driver returns) and
hand back a `SurfaceImage` with `used = false`.  Note: the code does *not*
increment `images_acquired`. -/
def Surface.acquire_image (s : Surface) (driver_image_idx : Nat) :
    Except SurfaceImageAcquireError (Surface × SurfaceImage) :=
  if s.images_acquired + 1 > s.images.length then .error .NoImages
  else
    let next := (s.next_semaphore + 1) % s.semaphores.length
    let sem := (s.semaphores.getD next { available := 0, presentable := 0 })
    .ok ({ s with next_semaphore := next },
      { surface := s.surface
        dims := s.resolution
        image := ((s.images.getD driver_image_idx (0, 0))).1
        view := ((s.images.getD driver_image_idx (0, 0))).2
        format := s.format
        image_idx := driver_image_idx
        semaphores := sem
        used := false })

/-- The device capabilities / driver answers `Surface::update_config`
consults. -/
structure SurfaceCaps where
  max_extent : Nat × Nat
  present_modes : List Nat
  new_images : List (Nat × Nat)
  new_semaphores : List SurfaceImageSemaphores
  new_swapchain : Nat
deriving DecidableEq, Repr

/-- `vk::PresentModeKHR::IMMEDIATE`. -/
def PRESENT_MODE_IMMEDIATE : Nat := 0

/-- The configuration a surface update receives (`SurfaceConfiguration`). -/
structure SurfaceConfiguration where
  width : Nat
  height : Nat
  present_mode : Nat
  format : Nat
deriving DecidableEq, Repr

/-- `Surface::update_config` (`surface.rs`), with the driver's answers as
parameters: `none` models the `assert!` panic on zero dimensions; then the
update refuses with `ImagePending` iff `images_acquired ≠ 0`; otherwise it
releases the old swapchain state and recreates it with the resolution
clamped to `max_image_extent` and the present mode falling back to
`IMMEDIATE` when unsupported.  The chosen present mode is returned next to
the updated surface.  `images_acquired` is left untouched. -/
def Surface.update_config (s : Surface) (config : SurfaceConfiguration)
    (caps : SurfaceCaps) :
    Option (Except SurfaceUpdateError (Surface × Nat)) :=
  if config.width = 0 ∨ config.height = 0 then none
  else if s.images_acquired ≠ 0 then some (.error .ImagePending)
  else
    let resolution := (min config.width caps.max_extent.1,
                       min config.height caps.max_extent.2)
    let present_mode :=
      if caps.present_modes.contains config.present_mode then config.present_mode
      else PRESENT_MODE_IMMEDIATE
    some (.ok ({ s with
        swapchain := caps.new_swapchain
        resolution := resolution
        images := caps.new_images
        semaphores := caps.new_semaphores
        next_semaphore := 0 }, present_mode))

/-- `VulkanBackend::present_image` (`lib.rs`): `BadImage` when the image's
surface handle differs from the surface's, `NoRender` when the drawn flag
is unset; otherwise queue the present waiting on the image's `presentable`
semaphore — `queue_present`'s driver answer (`.ok suboptimal` or an error,
the latter folded to `true` by `unwrap_or(true)`) decides between
`Ok` and `Invalidated`.  The returned `List Nat` is the present-info wait
semaphore list. -/
def present_image (surface : Surface) (image : SurfaceImage)
    (driver : Except Unit Bool) :
    Except SurfacePresentFailure (SurfacePresentSuccess × List Nat) :=
  if image.surface ≠ surface.surface then .error .BadImage
  else if !image.used then .error .NoRender
  else
    let invalidated :=
      match driver with
      | .ok b => b
      | .error _ => true
    .ok (if invalidated then SurfacePresentSuccess.Invalidated else SurfacePresentSuccess.Ok,
         [image.semaphores.presentable])

/-! ## `map_memory` (`lib.rs`) -/

/-- How `map_memory` blocks for the recorded prior use: a kernel
`vkWaitSemaphores` when the recorded queue's target equals the recorded
value, a spin on the counter otherwise. -/
inductive WaitKind where
  | kernelWait
  | spin
deriving DecidableEq, Repr

/-- The blocking obligation `map_memory` performs before returning. -/
structure BlockSpec where
  semaphore : Nat
  value : Nat
  kind : WaitKind
deriving DecidableEq, Repr

/-- When a `BlockSpec` lets the caller continue, as a function of the
semaphore's counter: `vkWaitSemaphores(value)` returns once the counter has
reached `value`, and the spin loop `while counter < value {}` exits under
exactly the same condition. -/
def blockDone (b : BlockSpec) (counter : Nat) : Bool :=
  match b.kind with
  | .kernelWait => decide (b.value ≤ counter)
  | .spin => !decide (counter < b.value)

/-- `VulkanBackend::map_memory` (`lib.rs`): remove the buffer element's
entry from the global resource state; when an entry existed, block on the
recorded queue's semaphore — kernel wait iff that queue's current
`target_timeline_value()` equals the recorded value, spin otherwise — and
only then return the mapped pointer (represented by the element's aligned
byte offset). -/
def map_memory (resc_state : ResourceState) (queueOf : QueueType → VkQueue)
    (buffer : Nat) (idx : Nat) (aligned_size : Nat) :
    ResourceState × Option BlockSpec × Nat :=
  let r := resc_state.set_buffer buffer idx none
  match r.1 with
  | some old =>
      let q := queueOf old.queue
      (r.2,
       some { semaphore := q.semaphore
              value := old.value
              kind := if q.target_value = old.value then .kernelWait else .spin },
       aligned_size * idx)
  | none => (r.2, none, aligned_size * idx)

/-! ## Keys of the barrier and registry maps -/

/-- The key a sub-resource uses in `submit`'s barrier-accumulation maps:
`(buffer, array_elem)` for buffers, `(image, array_elem, mip)` for
textures. -/
def barrierKey : SubResource → Sum (Nat × Nat) (Nat × Nat × Nat)
  | .buffer b e => .inl (b, e)
  | .texture t _ e m => .inr (t, e, m)

/-- The key a sub-resource uses in the global queue-usage registry:
`(buffer, array_elem)` or `(image, array_elem)`. -/
def queueKey : SubResource → Sum (Nat × Nat) (Nat × Nat)
  | .buffer b e => .inl (b, e)
  | .texture t _ e _ => .inr (t, e)

/-- The global registry's queue-usage entry for a sub-resource. -/
def queueEntry (g : GlobalResourceUsage) : SubResource → Option QueueUsage
  | .buffer b e => g.buffers (b, e)
  | .texture t _ e _ => g.images (t, e)

/-- The "previous layout" `submit`'s loop obtains from the registry:
`UNDEFINED` for buffers, the stored layout (default `UNDEFINED`) for
textures. -/
def registryLayout (g : GlobalResourceUsage) : SubResource → Nat
  | .buffer _ _ => UNDEFINED
  | .texture t _ e m => (g.image_layouts (t, e, m)).getD UNDEFINED

/-- Whether a produced `PipelineBarrier` holds a barrier under a given
sub-resource's key. -/
def hasBarrierFor (b : PipelineBarrier) (r : SubResource) : Bool :=
  match barrierKey r with
  | .inl K => (lookupKey b.buffer_barriers K).isSome
  | .inr K => (lookupKey b.image_barriers K).isSome

/-- Selection of the queue object for a queue type, as
`LatestUsage::wait_if_needed` matches it. -/
def queueSel (main transfer compute present : VkQueue) : QueueType → VkQueue
  | .Main => main
  | .Transfer => transfer
  | .Compute => compute
  | .Present => present

/-! ## Association-list map lemmas -/

theorem lookupKey_upsert_self {κ α : Type} [DecidableEq κ] (l : List (κ × α)) (k : κ) (a : α) :
    lookupKey (upsert l k a) k = some a := by
  induction l with
  | nil => simp [upsert, lookupKey]
  | cons hd t ih =>
    by_cases hk : hd.1 = k
    · simpa [upsert, hk] using ih
    · simp [upsert, hk, lookupKey, ih]

theorem lookupKey_upsert_ne {κ α : Type} [DecidableEq κ] (l : List (κ × α)) (k k' : κ) (a : α)
    (h : k' ≠ k) : lookupKey (upsert l k a) k' = lookupKey l k' := by
  have hkk : ¬(k = k') := Ne.symm h
  induction l with
  | nil => simp [upsert, lookupKey, hkk]
  | cons hd t ih =>
    by_cases hk : hd.1 = k
    · simp [upsert, hk, lookupKey, hkk, ih]
    · simp only [upsert, hk, if_neg, ite_false, lookupKey]
      by_cases hk' : hd.1 = k'
      · simp [hk']
      · simp [hk', ih]

theorem countKey_upsert_self {κ α : Type} [DecidableEq κ] (l : List (κ × α)) (k : κ) (a : α) :
    countKey (upsert l k a) k = 1 := by
  induction l with
  | nil => simp [upsert, countKey]
  | cons hd t ih =>
    by_cases hk : hd.1 = k
    · simpa [upsert, hk] using ih
    · simp [upsert, hk, countKey, ih]

theorem countKey_upsert_ne {κ α : Type} [DecidableEq κ] (l : List (κ × α)) (k k' : κ) (a : α)
    (h : k' ≠ k) : countKey (upsert l k a) k' = countKey l k' := by
  have hkk : ¬(k = k') := Ne.symm h
  induction l with
  | nil => simp [upsert, countKey, hkk]
  | cons hd t ih =>
    by_cases hk : hd.1 = k
    · simp [upsert, hk, countKey, hkk, ih]
    · simp [upsert, hk, countKey, ih]

/-! ## Bitmask lemmas -/

theorem flagsContain_or_self_left (x y : Flags) : flagsContain (x ||| y) x = true := by
  have : (x ||| y) &&& x = x := by
    apply Nat.eq_of_testBit_eq
    intro i
    simp only [Nat.testBit_land, Nat.testBit_lor]
    cases hx : x.testBit i <;> cases hy : y.testBit i <;> rfl
  simpa [flagsContain] using this

theorem flagsContain_or_self_right (x y : Flags) : flagsContain (x ||| y) y = true := by
  have : (x ||| y) &&& y = y := by
    apply Nat.eq_of_testBit_eq
    intro i
    simp only [Nat.testBit_land, Nat.testBit_lor]
    cases hx : x.testBit i <;> cases hy : y.testBit i <;> rfl
  simpa [flagsContain] using this

theorem flagsContain_or_mono (x w y : Flags) (h : flagsContain x y = true) :
    flagsContain (x ||| w) y = true := by
  simp only [flagsContain, decide_eq_true_eq] at h ⊢
  apply Nat.eq_of_testBit_eq
  intro i
  have hi := congrArg (fun n => n.testBit i) h
  simp only [Nat.testBit_land] at hi
  simp only [Nat.testBit_land, Nat.testBit_lor]
  cases hx : x.testBit i <;> cases hw : w.testBit i <;> cases hy : y.testBit i <;>
    simp_all

/-! ## `submitStep` preservation lemmas -/

theorem submitStep_usages_other (st : PipelineTracker × PipelineBarrier)
    (p : SubResource × SubResourceUsage) (r : SubResource) (h : p.1 ≠ r) :
    (submitStep st p).1.usages r = st.1.usages r := by
  simp only [submitStep]
  exact if_neg (Ne.symm h)

theorem submitStep_layout_other (st : PipelineTracker × PipelineBarrier)
    (p : SubResource × SubResourceUsage) (K : Nat × Nat × Nat)
    (h : barrierKey p.1 ≠ Sum.inr K) :
    (submitStep st p).1.global.image_layouts K = st.1.global.image_layouts K := by
  simp only [submitStep]
  cases hp : p.1 with
  | buffer b e =>
      simp [registerScopeResource, GlobalResourceUsage.register_buffer]
  | texture t a e m =>
      rw [hp] at h
      have hne : ¬(K = (t, e, m)) := by
        intro hh
        exact h (by simp [barrierKey, hh])
      simp [registerScopeResource, GlobalResourceUsage.register_image,
            GlobalResourceUsage.register_layout, hne]

theorem submitStep_queueEntry_other (st : PipelineTracker × PipelineBarrier)
    (p : SubResource × SubResourceUsage) (r : SubResource)
    (h : queueKey p.1 ≠ queueKey r) :
    queueEntry (submitStep st p).1.global r = queueEntry st.1.global r := by
  simp only [submitStep]
  cases hp : p.1 with
  | buffer b e =>
      rw [hp] at h
      cases r with
      | buffer b' e' =>
          have hne : ¬((b', e') = (b, e)) := by
            intro hh
            exact h (by simp [queueKey, hh])
          simp [registerScopeResource, GlobalResourceUsage.register_buffer, queueEntry, hne]
      | texture t' a' e' m' =>
          simp [registerScopeResource, GlobalResourceUsage.register_buffer, queueEntry]
  | texture t a e m =>
      rw [hp] at h
      cases r with
      | buffer b' e' =>
          simp [registerScopeResource, GlobalResourceUsage.register_image,
                GlobalResourceUsage.register_layout, queueEntry]
      | texture t' a' e' m' =>
          have hne : ¬((t', e') = (t, e)) := by
            intro hh
            apply h
            obtain ⟨h1, h2⟩ := Prod.ext_iff.mp hh
            subst h1; subst h2
            rfl
          simp [registerScopeResource, GlobalResourceUsage.register_image,
                GlobalResourceUsage.register_layout, queueEntry, hne]

theorem submitStep_imageBarriers_other (st : PipelineTracker × PipelineBarrier)
    (p : SubResource × SubResourceUsage) (K : Nat × Nat × Nat)
    (h : barrierKey p.1 ≠ Sum.inr K) :
    lookupKey (submitStep st p).2.image_barriers K = lookupKey st.2.image_barriers K ∧
    countKey (submitStep st p).2.image_barriers K = countKey st.2.image_barriers K := by
  simp only [submitStep]
  by_cases hb : (barrierDecision (st.1.usages p.1)
      (registerScopeResource st.1.global
        { queue := st.1.queue_ty, timeline_value := st.1.next_value } p.1 p.2).2.1 p.2).1 = true
  · simp only [hb, if_true]
    cases hp : p.1 with
    | buffer b e => simp [accumulateBarrier]
    | texture t a e m =>
        rw [hp] at h
        have hne : K ≠ (t, e, m) := by
          intro hh
          exact h (by simp [barrierKey, hh])
        simp [accumulateBarrier, lookupKey_upsert_ne _ _ _ _ hne,
              countKey_upsert_ne _ _ _ _ hne]
  · simp only [Bool.not_eq_true] at hb
    simp [hb]

theorem submitStep_bufferBarriers_other (st : PipelineTracker × PipelineBarrier)
    (p : SubResource × SubResourceUsage) (K : Nat × Nat)
    (h : barrierKey p.1 ≠ Sum.inl K) :
    lookupKey (submitStep st p).2.buffer_barriers K = lookupKey st.2.buffer_barriers K ∧
    countKey (submitStep st p).2.buffer_barriers K = countKey st.2.buffer_barriers K := by
  simp only [submitStep]
  by_cases hb : (barrierDecision (st.1.usages p.1)
      (registerScopeResource st.1.global
        { queue := st.1.queue_ty, timeline_value := st.1.next_value } p.1 p.2).2.1 p.2).1 = true
  · simp only [hb, if_true]
    cases hp : p.1 with
    | texture t a e m => simp [accumulateBarrier]
    | buffer b e =>
        rw [hp] at h
        have hne : K ≠ (b, e) := by
          intro hh
          exact h (by simp [barrierKey, hh])
        simp [accumulateBarrier, lookupKey_upsert_ne _ _ _ _ hne,
              countKey_upsert_ne _ _ _ _ hne]
  · simp only [Bool.not_eq_true] at hb
    simp [hb]

theorem submitStep_srcStage_mono (st : PipelineTracker × PipelineBarrier)
    (p : SubResource × SubResourceUsage) (y : Flags)
    (h : flagsContain st.2.src_stage y = true) :
    flagsContain (submitStep st p).2.src_stage y = true := by
  simp only [submitStep]
  by_cases hb : (barrierDecision (st.1.usages p.1)
      (registerScopeResource st.1.global
        { queue := st.1.queue_ty, timeline_value := st.1.next_value } p.1 p.2).2.1 p.2).1 = true
  · simp only [hb, if_true]
    cases p.1 with
    | buffer b e => exact flagsContain_or_mono _ _ _ h
    | texture t a e m => exact flagsContain_or_mono _ _ _ h
  · simp only [Bool.not_eq_true] at hb
    simpa [hb] using h

/-! ## Fold preservation lemmas for `PipelineTracker.submit` -/

theorem foldl_usages_other (l : Scope) (st : PipelineTracker × PipelineBarrier)
    (r : SubResource) (h : ∀ p ∈ l, p.1 ≠ r) :
    (l.foldl submitStep st).1.usages r = st.1.usages r := by
  induction l generalizing st with
  | nil => rfl
  | cons hd tl ih =>
    rw [List.foldl_cons, ih _ (fun p hp => h p (List.mem_cons_of_mem _ hp))]
    exact submitStep_usages_other st hd r (h hd (List.mem_cons_self _ _))

theorem foldl_layout_other (l : Scope) (st : PipelineTracker × PipelineBarrier)
    (K : Nat × Nat × Nat) (h : ∀ p ∈ l, barrierKey p.1 ≠ Sum.inr K) :
    (l.foldl submitStep st).1.global.image_layouts K = st.1.global.image_layouts K := by
  induction l generalizing st with
  | nil => rfl
  | cons hd tl ih =>
    rw [List.foldl_cons, ih _ (fun p hp => h p (List.mem_cons_of_mem _ hp))]
    exact submitStep_layout_other st hd K (h hd (List.mem_cons_self _ _))

theorem foldl_queueEntry_other (l : Scope) (st : PipelineTracker × PipelineBarrier)
    (r : SubResource) (h : ∀ p ∈ l, queueKey p.1 ≠ queueKey r) :
    queueEntry (l.foldl submitStep st).1.global r = queueEntry st.1.global r := by
  induction l generalizing st with
  | nil => rfl
  | cons hd tl ih =>
    rw [List.foldl_cons, ih _ (fun p hp => h p (List.mem_cons_of_mem _ hp))]
    exact submitStep_queueEntry_other st hd r (h hd (List.mem_cons_self _ _))

theorem foldl_imageBarriers_other (l : Scope) (st : PipelineTracker × PipelineBarrier)
    (K : Nat × Nat × Nat) (h : ∀ p ∈ l, barrierKey p.1 ≠ Sum.inr K) :
    lookupKey (l.foldl submitStep st).2.image_barriers K = lookupKey st.2.image_barriers K ∧
    countKey (l.foldl submitStep st).2.image_barriers K = countKey st.2.image_barriers K := by
  induction l generalizing st with
  | nil => exact ⟨rfl, rfl⟩
  | cons hd tl ih =>
    rw [List.foldl_cons]
    have hstep := submitStep_imageBarriers_other st hd K (h hd (List.mem_cons_self _ _))
    have hrest := ih (submitStep st hd) (fun p hp => h p (List.mem_cons_of_mem _ hp))
    exact ⟨hrest.1.trans hstep.1, hrest.2.trans hstep.2⟩

theorem foldl_bufferBarriers_other (l : Scope) (st : PipelineTracker × PipelineBarrier)
    (K : Nat × Nat) (h : ∀ p ∈ l, barrierKey p.1 ≠ Sum.inl K) :
    lookupKey (l.foldl submitStep st).2.buffer_barriers K = lookupKey st.2.buffer_barriers K ∧
    countKey (l.foldl submitStep st).2.buffer_barriers K = countKey st.2.buffer_barriers K := by
  induction l generalizing st with
  | nil => exact ⟨rfl, rfl⟩
  | cons hd tl ih =>
    rw [List.foldl_cons]
    have hstep := submitStep_bufferBarriers_other st hd K (h hd (List.mem_cons_self _ _))
    have hrest := ih (submitStep st hd) (fun p hp => h p (List.mem_cons_of_mem _ hp))
    exact ⟨hrest.1.trans hstep.1, hrest.2.trans hstep.2⟩

theorem foldl_srcStage_mono (l : Scope) (st : PipelineTracker × PipelineBarrier)
    (y : Flags) (h : flagsContain st.2.src_stage y = true) :
    flagsContain (l.foldl submitStep st).2.src_stage y = true := by
  induction l generalizing st with
  | nil => exact h
  | cons hd tl ih =>
    rw [List.foldl_cons]
    exact ih _ (submitStep_srcStage_mono st hd y h)

theorem countKey_ne_zero_not_isEmpty {κ α : Type} [DecidableEq κ]
    (l : List (κ × α)) (k : κ) (h : countKey l k ≠ 0) : l.isEmpty = false := by
  cases l with
  | nil => exact absurd rfl h
  | cons hd tl => rfl

/-- Computation of one `submit` loop iteration on a texture sub-resource
with no previous in-submission usage and a layout mismatch: an image barrier
with `NONE` source access is inserted under the sub-resource's key and
`TOP_OF_PIPE` is OR-ed into the source stage. -/
theorem submitStep_texture_first_transition (st : PipelineTracker × PipelineBarrier)
    (tex : Nat) (aspect : Flags) (elem mip : Nat) (u : SubResourceUsage)
    (husage : st.1.usages (SubResource.texture tex aspect elem mip) = none)
    (hlayout : (st.1.global.image_layouts (tex, elem, mip)).getD UNDEFINED ≠ u.layout) :
    (submitStep st (SubResource.texture tex aspect elem mip, u)).2.image_barriers =
      upsert st.2.image_barriers (tex, elem, mip)
        { src_access_mask := ACCESS_NONE
          dst_access_mask := u.access
          old_layout := (st.1.global.image_layouts (tex, elem, mip)).getD UNDEFINED
          new_layout := u.layout
          image := tex
          aspect_mask := aspect
          base_mip_level := mip
          base_array_layer := elem } ∧
    (submitStep st (SubResource.texture tex aspect elem mip, u)).2.src_stage =
      st.2.src_stage ||| TOP_OF_PIPE ∧
    (submitStep st (SubResource.texture tex aspect elem mip, u)).2.dst_stage =
      st.2.dst_stage ||| u.stage ∧
    (submitStep st (SubResource.texture tex aspect elem mip, u)).2.buffer_barriers =
      st.2.buffer_barriers := by
  simp only [submitStep, registerScopeResource, GlobalResourceUsage.register_image,
             GlobalResourceUsage.register_layout, barrierDecision, accumulateBarrier,
             husage, hlayout]
  simp [hlayout]

/-! ## Claim C2 — first-use layout transition -/

/-- C2: for a texture sub-resource in a usage scope with no prior
in-submission usage whose required layout differs from the layout stored in
the global registry (`UNDEFINED` when absent), `PipelineTracker::submit`
emits exactly one image memory barrier for that sub-resource, with source
access `NONE`, old layout equal to the registry layout, new layout equal to
the requested layout, and destination access equal to the requested access;
`TOP_OF_PIPE` is contained in the barrier's source stage, and when the
sub-resource is the only scope entry the source stage is exactly
`TOP_OF_PIPE` with destination stage exactly the requested stage. -/
theorem submit_first_use_layout_transition
    (t : PipelineTracker) (pre post : Scope) (tex : Nat) (aspect : Flags)
    (elem mip : Nat) (u : SubResourceUsage)
    (husage : t.usages (SubResource.texture tex aspect elem mip) = none)
    (hlayout : (t.global.image_layouts (tex, elem, mip)).getD UNDEFINED ≠ u.layout)
    (hpre : ∀ p ∈ pre, barrierKey p.1 ≠ Sum.inr (tex, elem, mip))
    (hpost : ∀ p ∈ post, barrierKey p.1 ≠ Sum.inr (tex, elem, mip)) :
    ∃ b, (t.submit (pre ++ (SubResource.texture tex aspect elem mip, u) :: post)).2 = some b ∧
      lookupKey b.image_barriers (tex, elem, mip) = some
        { src_access_mask := ACCESS_NONE
          dst_access_mask := u.access
          old_layout := (t.global.image_layouts (tex, elem, mip)).getD UNDEFINED
          new_layout := u.layout
          image := tex
          aspect_mask := aspect
          base_mip_level := mip
          base_array_layer := elem } ∧
      countKey b.image_barriers (tex, elem, mip) = 1 ∧
      flagsContain b.src_stage TOP_OF_PIPE = true ∧
      (pre = [] → post = [] → b.src_stage = TOP_OF_PIPE ∧ b.dst_stage = u.stage) := by
  have hpre' : ∀ p ∈ pre, p.1 ≠ SubResource.texture tex aspect elem mip := by
    intro p hp he
    exact hpre p hp (by rw [he]; rfl)
  simp only [PipelineTracker.submit, List.foldl_append, List.foldl_cons]
  set st0 : PipelineTracker × PipelineBarrier :=
    (t, { src_stage := 0, dst_stage := 0, buffer_barriers := [], image_barriers := [] })
  set st1 := pre.foldl submitStep st0 with hst1
  have h1u : st1.1.usages (SubResource.texture tex aspect elem mip) = none := by
    rw [hst1, foldl_usages_other pre st0 _ hpre']
    exact husage
  have h1l : st1.1.global.image_layouts (tex, elem, mip) =
      t.global.image_layouts (tex, elem, mip) := by
    rw [hst1]
    exact foldl_layout_other pre st0 _ hpre
  have hlayout1 : (st1.1.global.image_layouts (tex, elem, mip)).getD UNDEFINED ≠ u.layout := by
    rw [h1l]; exact hlayout
  have hstep := submitStep_texture_first_transition st1 tex aspect elem mip u h1u hlayout1
  set st2 := submitStep st1 (SubResource.texture tex aspect elem mip, u) with hst2
  set st3 := post.foldl submitStep st2 with hst3
  have h3 := foldl_imageBarriers_other post st2 (tex, elem, mip) hpost
  have hlook : lookupKey st3.2.image_barriers (tex, elem, mip) = some
      { src_access_mask := ACCESS_NONE
        dst_access_mask := u.access
        old_layout := (t.global.image_layouts (tex, elem, mip)).getD UNDEFINED
        new_layout := u.layout
        image := tex
        aspect_mask := aspect
        base_mip_level := mip
        base_array_layer := elem } := by
    rw [hst3]
    rw [h3.1, hstep.1, h1l]
    exact lookupKey_upsert_self _ _ _
  have hcount : countKey st3.2.image_barriers (tex, elem, mip) = 1 := by
    rw [hst3]
    rw [h3.2, hstep.1]
    exact countKey_upsert_self _ _ _
  have hsrc : flagsContain st3.2.src_stage TOP_OF_PIPE = true := by
    rw [hst3]
    apply foldl_srcStage_mono
    rw [hstep.2.1]
    exact flagsContain_or_self_right _ _
  have hne : st3.2.image_barriers.isEmpty = false :=
    countKey_ne_zero_not_isEmpty _ _ (by rw [hcount]; exact one_ne_zero)
  refine ⟨st3.2, ?_, hlook, hcount, hsrc, ?_⟩
  · simp [hne]
  · intro hpre0 hpost0
    subst hpre0; subst hpost0
    have h2 : st3.2 = st2.2 := by rw [hst3]; rfl
    rw [h2]
    refine ⟨?_, ?_⟩
    · rw [hstep.2.1]
      have : st1.2 = st0.2 := by rw [hst1]; rfl
      rw [this]
      simp
    · rw [hstep.2.2.1]
      have : st1.2 = st0.2 := by rw [hst1]; rfl
      rw [this]
      simp

/-- C2 witness: the theorem applied to a fresh tracker and a singleton scope
using a never-used image as a color attachment — the scenario of the spec's
"layout transition at first draw": one barrier, `NONE`/`TOP_OF_PIPE` source,
`UNDEFINED → COLOR_ATTACHMENT_OPTIMAL`. -/
theorem submit_first_use_layout_transition_witness :
    ∃ b, (({ global := ⟨fun _ => none, fun _ => none, fun _ => none⟩
             queue_ty := QueueType.Main
             next_value := 1
             usages := fun _ => none
             queues := fun _ => none } : PipelineTracker).submit
        [(SubResource.texture 3 1 0 0,
          { access := COLOR_ATTACHMENT_WRITE ||| COLOR_ATTACHMENT_READ
            stage := COLOR_ATTACHMENT_OUTPUT
            layout := COLOR_ATTACHMENT_OPTIMAL })]).2 = some b ∧
      lookupKey b.image_barriers (3, 0, 0) = some
        { src_access_mask := ACCESS_NONE
          dst_access_mask := COLOR_ATTACHMENT_WRITE ||| COLOR_ATTACHMENT_READ
          old_layout := UNDEFINED
          new_layout := COLOR_ATTACHMENT_OPTIMAL
          image := 3
          aspect_mask := 1
          base_mip_level := 0
          base_array_layer := 0 } ∧
      countKey b.image_barriers (3, 0, 0) = 1 ∧
      flagsContain b.src_stage TOP_OF_PIPE = true ∧
      b.src_stage = TOP_OF_PIPE ∧ b.dst_stage = COLOR_ATTACHMENT_OUTPUT := by
  have h := submit_first_use_layout_transition
    { global := ⟨fun _ => none, fun _ => none, fun _ => none⟩
      queue_ty := QueueType.Main
      next_value := 1
      usages := fun _ => none
      queues := fun _ => none }
    [] [] 3 1 0 0
    { access := COLOR_ATTACHMENT_WRITE ||| COLOR_ATTACHMENT_READ
      stage := COLOR_ATTACHMENT_OUTPUT
      layout := COLOR_ATTACHMENT_OPTIMAL }
    rfl (by decide) (by intro p hp; cases hp) (by intro p hp; cases hp)
  obtain ⟨b, h1, h2, h3, h4, h5⟩ := h
  exact ⟨b, h1, h2, h3, h4, (h5 rfl rfl).1, (h5 rfl rfl).2⟩

/-! ## Claim C3 — read-after-read -/

theorem registerScopeResource_old_layout (g : GlobalResourceUsage) (qu : QueueUsage)
    (r : SubResource) (u : SubResourceUsage) :
    (registerScopeResource g qu r u).2.1 = registryLayout g r := by
  cases r <;> rfl

/-- Computation of one `submit` loop iteration in the read-after-read case
with a matching layout: no barrier is registered and the in-submission
usage record is *replaced* by the new usage. -/
theorem submitStep_read_after_read (st : PipelineTracker × PipelineBarrier)
    (r : SubResource) (u : SubResourceUsage) (old : SubResourceUsage)
    (hprev : st.1.usages r = some old)
    (hold : flagsContain read_accesses old.access = true)
    (hnew : flagsContain read_accesses u.access = true)
    (hlay : registryLayout st.1.global r = u.layout) :
    (submitStep st (r, u)).2 = st.2 ∧
    (submitStep st (r, u)).1.usages r = some u := by
  constructor
  · simp only [submitStep, hprev, barrierDecision, registerScopeResource_old_layout, hlay,
               hold, hnew]
    simp
  · simp only [submitStep]
    simp

/-- C3 counterexample: the claim states the new access and stage of a
read-after-read use are OR-combined into the recorded in-submission usage.
The code *replaces* the record instead: after a `SHADER_READ@COMPUTE_SHADER`
use, a second `INDEX_READ@VERTEX_INPUT` read of the same buffer element
leaves the record at exactly the new usage, not at the OR of both (no
barrier is emitted, as claimed). -/
theorem submit_read_after_read_not_or_combined :
    ((({ global := ⟨fun _ => none, fun _ => none, fun _ => none⟩
         queue_ty := QueueType.Main
         next_value := 3
         usages := fun r => if r = SubResource.buffer 1 0 then
             some { access := SHADER_READ, stage := COMPUTE_SHADER, layout := 0 } else none
         queues := fun _ => none } : PipelineTracker).submit
        [(SubResource.buffer 1 0,
          { access := INDEX_READ, stage := VERTEX_INPUT, layout := 0 })]).2 = none) ∧
    ((({ global := ⟨fun _ => none, fun _ => none, fun _ => none⟩
         queue_ty := QueueType.Main
         next_value := 3
         usages := fun r => if r = SubResource.buffer 1 0 then
             some { access := SHADER_READ, stage := COMPUTE_SHADER, layout := 0 } else none
         queues := fun _ => none } : PipelineTracker).submit
        [(SubResource.buffer 1 0,
          { access := INDEX_READ, stage := VERTEX_INPUT, layout := 0 })]).1.usages
      (SubResource.buffer 1 0) =
      some { access := INDEX_READ, stage := VERTEX_INPUT, layout := 0 }) ∧
    ((some { access := INDEX_READ, stage := VERTEX_INPUT, layout := 0 } :
        Option SubResourceUsage) ≠
      some { access := SHADER_READ ||| INDEX_READ, stage := COMPUTE_SHADER ||| VERTEX_INPUT,
             layout := (0 : Nat) }) := by
  refine ⟨by decide, by decide, by decide⟩

/-- C3 (amended): if a sub-resource's previous in-submission access and the
newly requested access are both contained in the enumerated read-access set,
and the layout the registry reports for it (`UNDEFINED` for buffers, so all
buffer usages carry layout `UNDEFINED`) equals the requested layout, then
`PipelineTracker::submit` emits no buffer or image barrier for that
sub-resource, and the recorded in-submission usage is *replaced* by the new
access/stage/layout (not OR-combined). -/
theorem submit_read_after_read_no_barrier
    (t : PipelineTracker) (pre post : Scope) (r : SubResource)
    (u old : SubResourceUsage)
    (hprev : t.usages r = some old)
    (hold : flagsContain read_accesses old.access = true)
    (hnew : flagsContain read_accesses u.access = true)
    (hlay : registryLayout t.global r = u.layout)
    (hpre : ∀ p ∈ pre, barrierKey p.1 ≠ barrierKey r)
    (hpost : ∀ p ∈ post, barrierKey p.1 ≠ barrierKey r) :
    (t.submit (pre ++ (r, u) :: post)).1.usages r = some u ∧
    (∀ b, (t.submit (pre ++ (r, u) :: post)).2 = some b → hasBarrierFor b r = false) := by
  have hpre' : ∀ p ∈ pre, p.1 ≠ r := by
    intro p hp he
    exact hpre p hp (by rw [he])
  have hpost' : ∀ p ∈ post, p.1 ≠ r := by
    intro p hp he
    exact hpost p hp (by rw [he])
  simp only [PipelineTracker.submit, List.foldl_append, List.foldl_cons]
  set st0 : PipelineTracker × PipelineBarrier :=
    (t, { src_stage := 0, dst_stage := 0, buffer_barriers := [], image_barriers := [] })
  set st1 := pre.foldl submitStep st0 with hst1
  have h1u : st1.1.usages r = some old := by
    rw [hst1, foldl_usages_other pre st0 r hpre']
    exact hprev
  have h1l : registryLayout st1.1.global r = u.layout := by
    cases hr : r with
    | buffer b e =>
        rw [hr] at hlay
        simpa [registryLayout] using hlay
    | texture tex aspect e m =>
        have hkeys : ∀ p ∈ pre, barrierKey p.1 ≠ Sum.inr (tex, e, m) := by
          intro p hp
          have := hpre p hp
          rw [hr] at this
          exact this
        have := foldl_layout_other pre st0 (tex, e, m) hkeys
        rw [hst1]
        simp only [registryLayout, this]
        have hl := hlay
        rw [hr] at hl
        simpa [registryLayout] using hl
  have hstep := submitStep_read_after_read st1 r u old h1u hold hnew h1l
  set st2 := submitStep st1 (r, u) with hst2
  constructor
  · rw [foldl_usages_other post st2 r hpost']
    exact hstep.2
  · intro b hb
    have hkeep : hasBarrierFor (post.foldl submitStep st2).2 r = false := by
      cases hr : r with
      | buffer bb e =>
          have hkeys : ∀ p ∈ post, barrierKey p.1 ≠ Sum.inl (bb, e) := by
            intro p hp
            have := hpost p hp
            rw [hr] at this
            exact this
          have hkeyspre : ∀ p ∈ pre, barrierKey p.1 ≠ Sum.inl (bb, e) := by
            intro p hp
            have := hpre p hp
            rw [hr] at this
            exact this
          have h2 := foldl_bufferBarriers_other post st2 (bb, e) hkeys
          have h1 := foldl_bufferBarriers_other pre st0 (bb, e) hkeyspre
          simp only [hasBarrierFor, barrierKey]
          rw [h2.1, hstep.1, hst1, h1.1]
          rfl
      | texture tex aspect e m =>
          have hkeys : ∀ p ∈ post, barrierKey p.1 ≠ Sum.inr (tex, e, m) := by
            intro p hp
            have := hpost p hp
            rw [hr] at this
            exact this
          have hkeyspre : ∀ p ∈ pre, barrierKey p.1 ≠ Sum.inr (tex, e, m) := by
            intro p hp
            have := hpre p hp
            rw [hr] at this
            exact this
          have h2 := foldl_imageBarriers_other post st2 (tex, e, m) hkeys
          have h1 := foldl_imageBarriers_other pre st0 (tex, e, m) hkeyspre
          simp only [hasBarrierFor, barrierKey]
          rw [h2.1, hstep.1, hst1, h1.1]
          rfl
    by_cases hc : (!(post.foldl submitStep st2).2.image_barriers.isEmpty ||
        !(post.foldl submitStep st2).2.buffer_barriers.isEmpty) = true
    · simp only [hc, if_true] at hb
      rw [← Option.some_inj.mp hb]
      exact hkeep
    · simp only [Bool.not_eq_true] at hc
      simp [hc] at hb

/-- C3 witness: the amended theorem at a concrete state — a vertex buffer
read twice in a row (second read in a different stage) produces no barrier
and the record equals the second usage. -/
theorem submit_read_after_read_no_barrier_witness :
    ((({ global := ⟨fun _ => none, fun _ => none, fun _ => none⟩
         queue_ty := QueueType.Main
         next_value := 7
         usages := fun r => if r = SubResource.buffer 5 1 then
             some { access := VERTEX_ATTRIBUTE_READ, stage := VERTEX_INPUT, layout := 0 }
           else none
         queues := fun _ => none } : PipelineTracker).submit
        [(SubResource.buffer 5 1,
          { access := UNIFORM_READ, stage := VERTEX_SHADER, layout := 0 })]).1.usages
      (SubResource.buffer 5 1) =
      some { access := UNIFORM_READ, stage := VERTEX_SHADER, layout := 0 }) := by
  have h := submit_read_after_read_no_barrier
    { global := ⟨fun _ => none, fun _ => none, fun _ => none⟩
      queue_ty := QueueType.Main
      next_value := 7
      usages := fun r => if r = SubResource.buffer 5 1 then
          some { access := VERTEX_ATTRIBUTE_READ, stage := VERTEX_INPUT, layout := 0 }
        else none
      queues := fun _ => none }
    [] [] (SubResource.buffer 5 1)
    { access := UNIFORM_READ, stage := VERTEX_SHADER, layout := 0 }
    { access := VERTEX_ATTRIBUTE_READ, stage := VERTEX_INPUT, layout := 0 }
    (by decide) (by decide) (by decide) (by decide)
    (by intro p hp; cases hp) (by intro p hp; cases hp)
  exact h.1

/-! ## Claim C1 — inter-queue wait registration -/

theorem registerScopeResource_old_queue (g : GlobalResourceUsage) (qu : QueueUsage)
    (r : SubResource) (u : SubResourceUsage) :
    (registerScopeResource g qu r u).1 = queueEntry g r := by
  cases r <;> rfl

theorem submitStep_queue_ty (st : PipelineTracker × PipelineBarrier)
    (p : SubResource × SubResourceUsage) :
    (submitStep st p).1.queue_ty = st.1.queue_ty := rfl

theorem foldl_queue_ty (l : Scope) (st : PipelineTracker × PipelineBarrier) :
    (l.foldl submitStep st).1.queue_ty = st.1.queue_ty := by
  induction l generalizing st with
  | nil => rfl
  | cons hd tl ih =>
    rw [List.foldl_cons, ih]
    rfl

theorem select_wait_stage_rank (x : Flags) :
    rank_pipeline_stage (select_wait_stage x) ≤ 13 ∧
    (rank_pipeline_stage (select_wait_stage x) = 13 →
      select_wait_stage x = BOTTOM_OF_PIPE) := by
  unfold select_wait_stage
  by_cases h0 : flagsContain x BOTTOM_OF_PIPE = true
  · rw [if_pos h0]; exact ⟨by decide, by decide⟩
  rw [if_neg h0]
  by_cases h1 : flagsContain x COMPUTE_SHADER = true
  · rw [if_pos h1]; exact ⟨by decide, by decide⟩
  rw [if_neg h1]
  by_cases h2 : flagsContain x TRANSFER = true
  · rw [if_pos h2]; exact ⟨by decide, by decide⟩
  rw [if_neg h2]
  by_cases h3 : flagsContain x COLOR_ATTACHMENT_OUTPUT = true
  · rw [if_pos h3]; exact ⟨by decide, by decide⟩
  rw [if_neg h3]
  by_cases h4 : flagsContain x LATE_FRAGMENT_TESTS = true
  · rw [if_pos h4]; exact ⟨by decide, by decide⟩
  rw [if_neg h4]
  by_cases h5 : flagsContain x EARLY_FRAGMENT_TESTS = true
  · rw [if_pos h5]; exact ⟨by decide, by decide⟩
  rw [if_neg h5]
  by_cases h6 : flagsContain x FRAGMENT_SHADER = true
  · rw [if_pos h6]; exact ⟨by decide, by decide⟩
  rw [if_neg h6]
  by_cases h7 : flagsContain x GEOMETRY_SHADER = true
  · rw [if_pos h7]; exact ⟨by decide, by decide⟩
  rw [if_neg h7]
  by_cases h8 : flagsContain x TESSELLATION_EVALUATION_SHADER = true
  · rw [if_pos h8]; exact ⟨by decide, by decide⟩
  rw [if_neg h8]
  by_cases h9 : flagsContain x TESSELLATION_CONTROL_SHADER = true
  · rw [if_pos h9]; exact ⟨by decide, by decide⟩
  rw [if_neg h9]
  by_cases h10 : flagsContain x VERTEX_SHADER = true
  · rw [if_pos h10]; exact ⟨by decide, by decide⟩
  rw [if_neg h10]
  by_cases h11 : flagsContain x VERTEX_INPUT = true
  · rw [if_pos h11]; exact ⟨by decide, by decide⟩
  rw [if_neg h11]
  by_cases h12 : flagsContain x DRAW_INDIRECT = true
  · rw [if_pos h12]; exact ⟨by decide, by decide⟩
  rw [if_neg h12]
  exact ⟨by decide, by decide⟩

theorem submitStep_queues_rank_mono (st : PipelineTracker × PipelineBarrier)
    (p : SubResource × SubResourceUsage) (q : QueueType) (s : Flags)
    (h : st.1.queues q = some s) :
    ∃ s', (submitStep st p).1.queues q = some s' ∧
      rank_pipeline_stage s' ≤ rank_pipeline_stage s := by
  simp only [submitStep, updateWaitQueues]
  cases hq : (registerScopeResource st.1.global
      { queue := st.1.queue_ty, timeline_value := st.1.next_value } p.1 p.2).1 with
  | none => exact ⟨s, h, le_refl _⟩
  | some old =>
      dsimp only
      by_cases hne : old.queue ≠ st.1.queue_ty
      · rw [if_pos hne]
        by_cases hqq : q = old.queue
        · subst hqq
          simp only [if_pos rfl, h, Option.getD_some]
          by_cases hlt : rank_pipeline_stage (select_wait_stage p.2.stage) <
              rank_pipeline_stage s
          · rw [if_pos hlt]
            exact ⟨_, rfl, le_of_lt hlt⟩
          · rw [if_neg hlt]
            exact ⟨s, rfl, le_refl _⟩
        · simp only [if_neg hqq]
          exact ⟨s, h, le_refl _⟩
      · rw [if_neg hne]
        exact ⟨s, h, le_refl _⟩


theorem foldl_queues_rank_mono (l : Scope) (st : PipelineTracker × PipelineBarrier)
    (q : QueueType) (s : Flags) (h : st.1.queues q = some s) :
    ∃ s', (l.foldl submitStep st).1.queues q = some s' ∧
      rank_pipeline_stage s' ≤ rank_pipeline_stage s := by
  induction l generalizing st s with
  | nil => exact ⟨s, h, le_refl _⟩
  | cons hd tl ih =>
    rw [List.foldl_cons]
    obtain ⟨s1, h1, hle1⟩ := submitStep_queues_rank_mono st hd q s h
    obtain ⟨s2, h2, hle2⟩ := ih (submitStep st hd) s1 h1
    exact ⟨s2, h2, le_trans hle2 hle1⟩

theorem submitStep_registers_hint (st : PipelineTracker × PipelineBarrier)
    (r : SubResource) (u : SubResourceUsage) (q' : QueueType) (v : Nat)
    (hq : queueEntry st.1.global r = some { queue := q', timeline_value := v })
    (hne : q' ≠ st.1.queue_ty) :
    ∃ s', (submitStep st (r, u)).1.queues q' = some s' ∧
      rank_pipeline_stage s' ≤ rank_pipeline_stage (select_wait_stage u.stage) ∧
      (st.1.queues q' = none → s' = select_wait_stage u.stage) := by
  have hro : (registerScopeResource st.1.global
      { queue := st.1.queue_ty, timeline_value := st.1.next_value } r u).1 =
      some { queue := q', timeline_value := v } := by
    rw [registerScopeResource_old_queue]
    exact hq
  simp only [submitStep, updateWaitQueues, hro]
  rw [if_pos hne]
  rw [if_pos rfl]
  cases hcur : st.1.queues q' with
  | none =>
      simp only [Option.getD_none]
      by_cases hlt : rank_pipeline_stage (select_wait_stage u.stage) <
          rank_pipeline_stage BOTTOM_OF_PIPE
      · rw [if_pos hlt]
        exact ⟨_, rfl, le_refl _, fun _ => rfl⟩
      · rw [if_neg hlt]
        have h13 : rank_pipeline_stage (select_wait_stage u.stage) = 13 := by
          have hb := (select_wait_stage_rank u.stage).1
          have : rank_pipeline_stage BOTTOM_OF_PIPE = 13 := by decide
          omega
        have hbot : select_wait_stage u.stage = BOTTOM_OF_PIPE :=
          (select_wait_stage_rank u.stage).2 h13
        refine ⟨BOTTOM_OF_PIPE, rfl, ?_, fun _ => hbot.symm⟩
        rw [hbot]
  | some cur =>
      simp only [Option.getD_some]
      by_cases hlt : rank_pipeline_stage (select_wait_stage u.stage) <
          rank_pipeline_stage cur
      · rw [if_pos hlt]
        exact ⟨_, rfl, le_refl _, fun hc => Option.noConfusion hc⟩
      · rw [if_neg hlt]
        exact ⟨cur, rfl, le_of_not_lt hlt, fun hc => Option.noConfusion hc⟩

/-- Registering a wait on a semaphore the tracker has no entry for stores
exactly the given info. -/
theorem register_wait_fresh (tr : SemaphoreTracker) (sem : Nat) (info : WaitInfo)
    (h : lookupKey tr.waits sem = none) :
    lookupKey (tr.register_wait sem info).waits sem = some info := by
  simp only [SemaphoreTracker.register_wait, h]
  exact lookupKey_upsert_self _ _ _

/-- C1 counterexample: the claim places the cross-queue wait at the
**minimum**-rank stage among the stages the submission uses the resource
in.  For a depth-attachment-style usage at
`EARLY_FRAGMENT_TESTS ||| LATE_FRAGMENT_TESTS` of a texture last used on
the `Transfer` queue, the code's selection chain records
`LATE_FRAGMENT_TESTS`, although `EARLY_FRAGMENT_TESTS` is a used stage of
strictly lower rank. -/
theorem submit_cross_queue_wait_counterexample :
    ((({ global :=
          ⟨fun _ => none,
           fun k => if k = (7, 0) then
               some { queue := QueueType.Transfer, timeline_value := 5 } else none,
           fun _ => none⟩
         queue_ty := QueueType.Main
         next_value := 9
         usages := fun _ => none
         queues := fun _ => none } : PipelineTracker).submit
        [(SubResource.texture 7 2 0 0,
          { access := DEPTH_STENCIL_ATTACHMENT_READ ||| DEPTH_STENCIL_ATTACHMENT_WRITE
            stage := EARLY_FRAGMENT_TESTS ||| LATE_FRAGMENT_TESTS
            layout := DEPTH_STENCIL_ATTACHMENT_OPTIMAL })]).1.queues QueueType.Transfer =
      some LATE_FRAGMENT_TESTS) ∧
    flagsContain (EARLY_FRAGMENT_TESTS ||| LATE_FRAGMENT_TESTS) EARLY_FRAGMENT_TESTS = true ∧
    rank_pipeline_stage EARLY_FRAGMENT_TESTS < rank_pipeline_stage LATE_FRAGMENT_TESTS ∧
    LATE_FRAGMENT_TESTS ≠ EARLY_FRAGMENT_TESTS := by
  refine ⟨by decide, by decide, by decide, by decide⟩

/-- C1 (amended): for a submission on queue `Q` using a sub-resource whose
global registry entry names queue `Q′ ≠ Q` at timeline value `V`:

1. `PipelineTracker::submit` records a wait-stage hint for `Q′` whose rank
   is at most the rank of the **latest-rank recognized stage contained in
   the resource's usage mask** (`select_wait_stage`, not the minimum-rank
   used stage as claimed); for a singleton scope with no previous hint the
   recorded stage is exactly that selected stage; and across several
   resources sharing the source queue the hint's rank only decreases
   (minimum kept).
2. The orchestrator turns the hint into a timeline wait on `Q′`'s semaphore
   for `Q′`'s current target value, which is `≥ V` whenever targets have
   progressed past the recorded value, at the hinted stage.
3. The `LatestUsage::wait_if_needed` path likewise registers a wait on the
   recorded queue's semaphore at its current target value (`≥ V` under the
   same monotonicity), at the stage passed by the caller. -/
theorem submit_cross_queue_wait
    (t : PipelineTracker) (pre post : Scope) (r : SubResource) (u : SubResourceUsage)
    (q' : QueueType) (v : Nat)
    (hq : queueEntry t.global r = some { queue := q', timeline_value := v })
    (hne : q' ≠ t.queue_ty)
    (hpre : ∀ p ∈ pre, queueKey p.1 ≠ queueKey r) :
    (∃ s, (t.submit (pre ++ (r, u) :: post)).1.queues q' = some s ∧
       rank_pipeline_stage s ≤ rank_pipeline_stage (select_wait_stage u.stage) ∧
       (pre = [] → post = [] → t.queues q' = none → s = select_wait_stage u.stage)) ∧
    (∀ (tr : SemaphoreTracker) (semOf targetOf : QueueType → Nat)
       (queues : QueueType → Option Flags) (s : Flags),
       queues q' = some s → lookupKey tr.waits (semOf q') = none →
       (∀ q, q ≠ q' → queues q = none) → v ≤ targetOf q' →
       ∃ w, lookupKey (addWaitHints tr queues semOf targetOf).waits (semOf q') = some w ∧
         w.value = some (targetOf q') ∧ v ≤ w.value.getD 0 ∧ w.stage = s) ∧
    (∀ (tr : SemaphoreTracker) (stage : Flags) (mq tq cq pq : VkQueue) (lu : LatestUsage),
       lu.queue = q' → lu.value = v →
       lookupKey tr.waits ((queueSel mq tq cq pq q').semaphore) = none →
       v ≤ (queueSel mq tq cq pq q').target_value →
       ∃ w, lookupKey (lu.wait_if_needed tr t.queue_ty stage mq tq cq pq).waits
           ((queueSel mq tq cq pq q').semaphore) = some w ∧
         w.value = some ((queueSel mq tq cq pq q').target_value) ∧
         v ≤ w.value.getD 0 ∧ w.stage = stage) := by
  refine ⟨?_, ?_, ?_⟩
  · simp only [PipelineTracker.submit, List.foldl_append, List.foldl_cons]
    set st0 : PipelineTracker × PipelineBarrier :=
      (t, { src_stage := 0, dst_stage := 0, buffer_barriers := [], image_barriers := [] })
    set st1 := pre.foldl submitStep st0 with hst1
    have h1q : queueEntry st1.1.global r = some { queue := q', timeline_value := v } := by
      rw [hst1, foldl_queueEntry_other pre st0 r hpre]
      exact hq
    have h1ty : q' ≠ st1.1.queue_ty := by
      rw [hst1, foldl_queue_ty]
      exact hne
    obtain ⟨s1, hs1, hrank1, hexact1⟩ := submitStep_registers_hint st1 r u q' v h1q h1ty
    obtain ⟨s2, hs2, hrank2⟩ :=
      foldl_queues_rank_mono post (submitStep st1 (r, u)) q' s1 hs1
    refine ⟨s2, hs2, le_trans hrank2 hrank1, ?_⟩
    intro hpre0 hpost0 hnone
    subst hpre0; subst hpost0
    have hst1e : st1 = st0 := by rw [hst1]; rfl
    have : s1 = select_wait_stage u.stage := by
      apply hexact1
      rw [hst1e]
      exact hnone
    have hs2e : (List.foldl submitStep (submitStep st1 (r, u)) []).1.queues q' = some s1 := hs1
    rw [hs2e] at hs2
    cases hs2
    exact this
  · intro tr semOf targetOf queues s hqs hw hother htv
    have hgoal : ∃ w,
        lookupKey (addWaitHints tr queues semOf targetOf).waits (semOf q') = some w ∧
        w.value = some (targetOf q') ∧ v ≤ w.value.getD 0 ∧ w.stage = s := by
      cases q' with
      | Main =>
          have hT := hother .Transfer (by decide)
          have hC := hother .Compute (by decide)
          have hP := hother .Present (by decide)
          simp only [addWaitHints, List.foldl_cons, List.foldl_nil, hqs, hT, hC, hP]
          exact ⟨_, register_wait_fresh tr _ _ hw, rfl, by simpa using htv, rfl⟩
      | Transfer =>
          have hM := hother .Main (by decide)
          have hC := hother .Compute (by decide)
          have hP := hother .Present (by decide)
          simp only [addWaitHints, List.foldl_cons, List.foldl_nil, hqs, hM, hC, hP]
          exact ⟨_, register_wait_fresh tr _ _ hw, rfl, by simpa using htv, rfl⟩
      | Compute =>
          have hM := hother .Main (by decide)
          have hT := hother .Transfer (by decide)
          have hP := hother .Present (by decide)
          simp only [addWaitHints, List.foldl_cons, List.foldl_nil, hqs, hM, hT, hP]
          exact ⟨_, register_wait_fresh tr _ _ hw, rfl, by simpa using htv, rfl⟩
      | Present =>
          have hM := hother .Main (by decide)
          have hT := hother .Transfer (by decide)
          have hC := hother .Compute (by decide)
          simp only [addWaitHints, List.foldl_cons, List.foldl_nil, hqs, hM, hT, hC]
          exact ⟨_, register_wait_fresh tr _ _ hw, rfl, by simpa using htv, rfl⟩
    exact hgoal
  · intro tr stage mq tq cq pq lu hluq hluv hw htv
    have hcond : lu.queue ≠ t.queue_ty := by rw [hluq]; exact hne
    have hsel : (match lu.queue with
        | QueueType.Main => (mq.semaphore, mq.target_value)
        | QueueType.Transfer => (tq.semaphore, tq.target_value)
        | QueueType.Compute => (cq.semaphore, cq.target_value)
        | QueueType.Present => (pq.semaphore, pq.target_value)) =
        ((queueSel mq tq cq pq q').semaphore, (queueSel mq tq cq pq q').target_value) := by
      rw [hluq]
      cases q' <;> rfl
    simp only [LatestUsage.wait_if_needed, hcond, ne_eq, not_false_iff, if_true, hsel]
    exact ⟨_, register_wait_fresh tr _ _ hw, rfl, by simpa using htv, rfl⟩

/-- C1 witness: the amended theorem at a concrete state — a depth
attachment last used on `Transfer` at value 5, submitted on `Main`: the
hint stage is `LATE_FRAGMENT_TESTS` and the resulting semaphore wait is for
`Transfer`'s target value 6 ≥ 5. -/
theorem submit_cross_queue_wait_witness :
    (∃ s,
      (PipelineTracker.submit
        { global :=
            ⟨fun _ => none,
             fun k => if k = (7, 0) then
                 some { queue := QueueType.Transfer, timeline_value := 5 } else none,
             fun _ => none⟩
          queue_ty := QueueType.Main
          next_value := 9
          usages := fun _ => none
          queues := fun _ => none }
        [(SubResource.texture 7 2 0 0,
          { access := DEPTH_STENCIL_ATTACHMENT_READ ||| DEPTH_STENCIL_ATTACHMENT_WRITE
            stage := EARLY_FRAGMENT_TESTS ||| LATE_FRAGMENT_TESTS
            layout := DEPTH_STENCIL_ATTACHMENT_OPTIMAL })]).1.queues QueueType.Transfer =
        some s) ∧
    (∃ w, lookupKey (addWaitHints { waits := [], signals := [] }
        (fun q => if q = QueueType.Transfer then some LATE_FRAGMENT_TESTS else none)
        (fun _ => 21) (fun _ => 6)).waits 21 = some w ∧
      w.value = some 6 ∧ 5 ≤ w.value.getD 0 ∧ w.stage = LATE_FRAGMENT_TESTS) := by
  have h := submit_cross_queue_wait
    { global :=
        ⟨fun _ => none,
         fun k => if k = (7, 0) then
             some { queue := QueueType.Transfer, timeline_value := 5 } else none,
         fun _ => none⟩
      queue_ty := QueueType.Main
      next_value := 9
      usages := fun _ => none
      queues := fun _ => none }
    [] [] (SubResource.texture 7 2 0 0)
    { access := DEPTH_STENCIL_ATTACHMENT_READ ||| DEPTH_STENCIL_ATTACHMENT_WRITE
      stage := EARLY_FRAGMENT_TESTS ||| LATE_FRAGMENT_TESTS
      layout := DEPTH_STENCIL_ATTACHMENT_OPTIMAL }
    QueueType.Transfer 5 (by decide) (by decide) (by intro p hp; cases hp)
  obtain ⟨⟨s, hs, _, _⟩, h2, _⟩ := h
  refine ⟨⟨s, by simpa using hs⟩, ?_⟩
  exact h2 { waits := [], signals := [] } (fun _ => 21) (fun _ => 6)
    (fun q => if q = QueueType.Transfer then some LATE_FRAGMENT_TESTS else none)
    LATE_FRAGMENT_TESTS (by decide) (by decide)
    (by intro q hq; cases q <;> simp_all) (by decide)

/-! ## Claim C7 — `UsageScope::use_resource` panic condition -/

/-- C7 counterexample: the claim states `use_resource` panics **iff** one
image sub-resource is given two distinct non-`UNDEFINED` layouts in a scope.
But after recording `COLOR_ATTACHMENT_OPTIMAL`, a second use requesting
`UNDEFINED` also panics, although the pair of requested layouts is *not* a
pair of two distinct non-`UNDEFINED` layouts. -/
theorem use_resource_panics_without_two_nonundefined_layouts :
    use_resource [] (SubResource.texture 1 1 0 0)
        { access := 1, stage := 1, layout := COLOR_ATTACHMENT_OPTIMAL } =
      some [((SubResource.texture 1 1 0 0),
        { access := 1, stage := 1, layout := COLOR_ATTACHMENT_OPTIMAL })] ∧
    use_resource [((SubResource.texture 1 1 0 0),
        { access := 1, stage := 1, layout := COLOR_ATTACHMENT_OPTIMAL })]
        (SubResource.texture 1 1 0 0)
        { access := 2, stage := 2, layout := UNDEFINED } = none ∧
    ¬(COLOR_ATTACHMENT_OPTIMAL ≠ UNDEFINED ∧ UNDEFINED ≠ UNDEFINED ∧
      COLOR_ATTACHMENT_OPTIMAL ≠ UNDEFINED) := by
  refine ⟨by decide, by decide, by decide⟩

/-- C7 (amended): `use_resource` panics iff the layout already recorded for
the sub-resource in the scope is non-`UNDEFINED` and differs from the newly
requested layout (which may itself be `UNDEFINED`); when it does not panic,
the recorded access and stage flags are OR-combined with the new ones and
the layout is overwritten by the requested one. -/
theorem use_resource_panic_iff (scope : Scope) (r : SubResource) (u : SubResourceUsage) :
    (use_resource scope r u = none ↔
      ((lookupKey scope r).getD default).layout ≠ UNDEFINED ∧
      ((lookupKey scope r).getD default).layout ≠ u.layout) ∧
    (use_resource scope r u ≠ none →
      ∃ s, use_resource scope r u = some s ∧
        lookupKey s r = some
          { access := ((lookupKey scope r).getD default).access ||| u.access
            stage := ((lookupKey scope r).getD default).stage ||| u.stage
            layout := u.layout }) := by
  constructor
  · unfold use_resource
    by_cases h : ((lookupKey scope r).getD default).layout = UNDEFINED ∨
        ((lookupKey scope r).getD default).layout = u.layout
    · simp only [h, if_pos]
      constructor
      · intro hc; exact absurd hc (by simp)
      · intro ⟨h1, h2⟩; rcases h with h | h
        · exact absurd h h1
        · exact absurd h h2
    · simp only [h, if_neg, not_false_iff]
      push_neg at h
      exact ⟨fun _ => h, fun _ => trivial⟩
  · intro hne
    unfold use_resource at hne ⊢
    by_cases h : ((lookupKey scope r).getD default).layout = UNDEFINED ∨
        ((lookupKey scope r).getD default).layout = u.layout
    · simp only [h, if_pos]
      exact ⟨_, rfl, lookupKey_upsert_self _ _ _⟩
    · simp only [h, if_neg, not_false_iff] at hne
      exact absurd rfl hne

/-- C7 witness: the amended theorem applied at a concrete scope — a repeated
use in the same layout does not panic and OR-combines flags. -/
theorem use_resource_panic_iff_witness :
    ∃ s, use_resource [((SubResource.buffer 4 0), { access := 2, stage := 4, layout := 0 })]
        (SubResource.buffer 4 0) { access := 8, stage := 16, layout := 0 } = some s ∧
      lookupKey s (SubResource.buffer 4 0) = some { access := 2 ||| 8, stage := 4 ||| 16, layout := 0 } := by
  have h := (use_resource_panic_iff
    [((SubResource.buffer 4 0), { access := 2, stage := 4, layout := 0 })]
    (SubResource.buffer 4 0) { access := 8, stage := 16, layout := 0 }).2 (by decide)
  simpa using h

/-! ## Claim C4 — garbage collector eligibility -/

theorem gcRemoveDesc_map_succ (idxs : List Nat) (a : ToDestroy) (l : List ToDestroy) :
    gcRemoveDesc (a :: l) (idxs.map (· + 1)) = a :: gcRemoveDesc l idxs := by
  induction idxs generalizing l with
  | nil => rfl
  | cons i idxs ih =>
      simp only [List.map_cons, gcRemoveDesc, List.foldl_cons, List.eraseIdx_cons_succ]
      exact ih _

theorem gcRemoveDesc_marked (current : TimelineValues) (l : List ToDestroy) :
    gcRemoveDesc l (gcMarkedIdxs current l).reverse =
      l.filter (fun a => !gcMarked current a) := by
  induction l with
  | nil => rfl
  | cons a l ih =>
    by_cases hp : gcMarked current a = true
    · simp only [gcMarkedIdxs, hp, if_pos, List.singleton_append, List.reverse_cons]
      rw [← List.map_reverse]
      unfold gcRemoveDesc
      rw [List.foldl_append]
      have h1 := gcRemoveDesc_map_succ (gcMarkedIdxs current l).reverse a l
      unfold gcRemoveDesc at h1
      rw [h1]
      simp only [List.foldl_cons, List.foldl_nil, List.eraseIdx_cons_zero]
      rw [List.filter_cons]
      simp only [hp, Bool.not_true, if_neg, Bool.false_eq_true, not_false_iff, ite_false]
      exact ih
    · have hp' : gcMarked current a = false := by
        cases h : gcMarked current a
        · rfl
        · exact absurd h hp
      simp only [gcMarkedIdxs, hp', Bool.false_eq_true, if_neg, not_false_iff,
                 List.nil_append]
      rw [← List.map_reverse]
      have h1 := gcRemoveDesc_map_succ (gcMarkedIdxs current l).reverse a l
      rw [h1, ih]
      rw [List.filter_cons]
      simp [hp']

theorem gcDestroyed_base (current : TimelineValues) (l : List ToDestroy) :
    (gcMarkedIdxs current l).filterMap (fun i => l.get? i) =
      l.filter (gcMarked current) := by
  induction l with
  | nil => rfl
  | cons a l ih =>
    have hmap : ((gcMarkedIdxs current l).map (· + 1)).filterMap
        (fun i => (a :: l).get? i) = (gcMarkedIdxs current l).filterMap (fun i => l.get? i) := by
      rw [List.filterMap_map]
      rfl
    by_cases hp : gcMarked current a = true
    · simp only [gcMarkedIdxs, hp, if_pos, List.singleton_append]
      rw [List.filterMap_cons]
      simp only [List.get?_cons_zero]
      rw [hmap, ih, List.filter_cons]
      simp [hp]
    · have hp' : gcMarked current a = false := by
        cases h : gcMarked current a
        · rfl
        · exact absurd h hp
      simp only [gcMarkedIdxs, hp', Bool.false_eq_true, if_neg, not_false_iff,
                 List.nil_append]
      rw [hmap, ih, List.filter_cons]
      simp [hp']

theorem gcDestroyed_marked (current : TimelineValues) (l : List ToDestroy) :
    (gcMarkedIdxs current l).reverse.filterMap (fun i => l.get? i) =
      (l.filter (gcMarked current)).reverse := by
  rw [List.filterMap_reverse, gcDestroyed_base]

theorem gcMarked_eligible (current : TimelineValues) (td : ToDestroy)
    (h : gcMarked current td = true) :
    (td.values.main ≤ current.main ∧ td.values.transfer ≤ current.transfer ∧
     td.values.compute ≤ current.compute) ∧
    (∀ b alloc strong, td.garbage = Garbage.buffer b alloc strong →
      ref_counter_is_last strong = true) := by
  cases hg : td.garbage with
  | buffer b alloc strong =>
      rw [gcMarked, hg] at h
      by_cases hl : ref_counter_is_last strong = true
      · simp only [hl, Bool.not_true, Bool.false_eq_true, if_neg, not_false_iff,
                   ite_false, Bool.and_eq_true, decide_eq_true_eq] at h
        refine ⟨⟨h.1.1, h.1.2, h.2⟩, ?_⟩
        intro b' alloc' strong' hg'
        cases hg'
        exact hl
      · have : ref_counter_is_last strong = false := by
          cases hx : ref_counter_is_last strong
          · rfl
          · exact absurd hx hl
        simp [this] at h
  | pipelineLayout x =>
      rw [gcMarked, hg] at h
      simp only [Bool.and_eq_true, decide_eq_true_eq] at h
      exact ⟨⟨h.1.1, h.1.2, h.2⟩, fun b alloc strong hg' => Garbage.noConfusion hg'⟩
  | pipeline x =>
      rw [gcMarked, hg] at h
      simp only [Bool.and_eq_true, decide_eq_true_eq] at h
      exact ⟨⟨h.1.1, h.1.2, h.2⟩, fun b alloc strong hg' => Garbage.noConfusion hg'⟩
  | descriptorSet x y =>
      rw [gcMarked, hg] at h
      simp only [Bool.and_eq_true, decide_eq_true_eq] at h
      exact ⟨⟨h.1.1, h.1.2, h.2⟩, fun b alloc strong hg' => Garbage.noConfusion hg'⟩

/-- C4: `GarbageCollector::cleanup` stamps every item received from the
channel with the `target` snapshot of the call; it destroys exactly the
items whose stamped main/transfer/compute targets are all `≤` the current
counters and whose reference counter — for buffer garbage — shows the last
remaining handle; every other item is retained for a later sweep. -/
theorem gcCleanup_spec (to_destroy : List ToDestroy) (incoming : List Garbage)
    (current target : TimelineValues) :
    (gcCleanup to_destroy incoming current target).2 =
      ((to_destroy ++ incoming.map (fun g => ({ garbage := g, values := target } : ToDestroy))).filter
        (gcMarked current)).reverse ∧
    (gcCleanup to_destroy incoming current target).1 =
      (to_destroy ++ incoming.map (fun g => ({ garbage := g, values := target } : ToDestroy))).filter
        (fun a => !gcMarked current a) ∧
    (∀ td ∈ (gcCleanup to_destroy incoming current target).2,
      (td.values.main ≤ current.main ∧ td.values.transfer ≤ current.transfer ∧
       td.values.compute ≤ current.compute) ∧
      (∀ b alloc strong, td.garbage = Garbage.buffer b alloc strong →
        ref_counter_is_last strong = true)) ∧
    (∀ td ∈ (gcCleanup to_destroy incoming current target).1,
      gcMarked current td = false) ∧
    (∀ td ∈ (gcCleanup to_destroy incoming current target).1,
      td ∈ to_destroy ∨ td.values = target) ∧
    (∀ td ∈ (gcCleanup to_destroy incoming current target).2,
      td ∈ to_destroy ∨ td.values = target) := by
  have hdest : (gcCleanup to_destroy incoming current target).2 =
      ((to_destroy ++ incoming.map (fun g => ({ garbage := g, values := target } : ToDestroy))).filter
        (gcMarked current)).reverse := by
    unfold gcCleanup
    exact gcDestroyed_marked current _
  have hkeep : (gcCleanup to_destroy incoming current target).1 =
      (to_destroy ++ incoming.map (fun g => ({ garbage := g, values := target } : ToDestroy))).filter
        (fun a => !gcMarked current a) := by
    unfold gcCleanup
    exact gcRemoveDesc_marked current _
  refine ⟨hdest, hkeep, ?_, ?_, ?_, ?_⟩
  · intro td hmem
    rw [hdest, List.mem_reverse, List.mem_filter] at hmem
    exact gcMarked_eligible current td hmem.2
  · intro td hmem
    rw [hkeep, List.mem_filter] at hmem
    have := hmem.2
    cases h : gcMarked current td
    · rfl
    · rw [h] at this; exact absurd this (by decide)
  · intro td hmem
    rw [hkeep, List.mem_filter, List.mem_append] at hmem
    rcases hmem.1 with h | h
    · exact Or.inl h
    · obtain ⟨g, _, heq⟩ := List.mem_map.mp h
      exact Or.inr (by rw [← heq])
  · intro td hmem
    rw [hdest, List.mem_reverse, List.mem_filter, List.mem_append] at hmem
    rcases hmem.1 with h | h
    · exact Or.inl h
    · obtain ⟨g, _, heq⟩ := List.mem_map.mp h
      exact Or.inr (by rw [← heq])

/-- C4 witness: the spec's "GC deferral" scenario — a dropped buffer with
target 100 on Main survives a sweep at `current.main = 50` (alongside a
fresh pipeline stamped with the call's target), and is destroyed once
`current.main = 100` with strong count 1. -/
theorem gcCleanup_spec_witness :
    (gcCleanup [{ garbage := Garbage.buffer 1 2 1, values := { main := 100, transfer := 0, compute := 0 } }]
      [Garbage.pipeline 9] { main := 50, transfer := 0, compute := 0 }
      { main := 120, transfer := 3, compute := 4 }).1 =
      [{ garbage := Garbage.buffer 1 2 1, values := { main := 100, transfer := 0, compute := 0 } },
       { garbage := Garbage.pipeline 9, values := { main := 120, transfer := 3, compute := 4 } }] ∧
    (gcCleanup [{ garbage := Garbage.buffer 1 2 1, values := { main := 100, transfer := 0, compute := 0 } }]
      [Garbage.pipeline 9] { main := 100, transfer := 5, compute := 6 }
      { main := 120, transfer := 3, compute := 4 }).2 =
      [{ garbage := Garbage.buffer 1 2 1, values := { main := 100, transfer := 0, compute := 0 } }] := by
  have h1 := (gcCleanup_spec
    [{ garbage := Garbage.buffer 1 2 1, values := { main := 100, transfer := 0, compute := 0 } }]
    [Garbage.pipeline 9] { main := 50, transfer := 0, compute := 0 }
    { main := 120, transfer := 3, compute := 4 }).2.1
  have h2 := (gcCleanup_spec
    [{ garbage := Garbage.buffer 1 2 1, values := { main := 100, transfer := 0, compute := 0 } }]
    [Garbage.pipeline 9] { main := 100, transfer := 5, compute := 6 }
    { main := 120, transfer := 3, compute := 4 }).1
  constructor
  · rw [h1]; decide
  · rw [h2]; decide

/-! ## Claim C5 — `VkQueue::submit` self-synchronization -/

theorem mem_upsert_self {κ α : Type} [DecidableEq κ] (l : List (κ × α)) (k : κ) (a : α) :
    (k, a) ∈ upsert l k a := by
  induction l with
  | nil => exact List.mem_singleton_self _
  | cons p t ih =>
    by_cases hk : p.1 = k
    · simpa [upsert, hk] using ih
    · simp only [upsert, hk, if_neg, ite_false]
      exact List.mem_cons_of_mem _ ih

/-- C5: every `VkQueue::submit` call registers a wait on the queue's own
timeline semaphore at the pre-call `target_value` (at `TOP_OF_PIPE`) and a
signal at `target_value + 1`; it increments `target_value` by exactly one
(so the target strictly increases across submits) and pushes the submitted
command buffer paired with the new target onto the free FIFO.  The own
semaphore's signal is the first entry of the submit info's signal lists. -/
theorem vkqueue_submit_spec (q : VkQueue) (cb : Nat) (tracker : SemaphoreTracker)
    (hw : lookupKey tracker.waits q.semaphore = none) :
    ((q.submit cb tracker).1.target_value = q.target_value + 1) ∧
    (q.target_value < (q.submit cb tracker).1.target_value) ∧
    ((q.submit cb tracker).1.free = q.free ++ [(cb, q.target_value + 1)]) ∧
    ((q.submit cb tracker).2.signal_semaphores.head? = some q.semaphore) ∧
    ((q.submit cb tracker).2.signal_values.head? = some (q.target_value + 1)) ∧
    (∃ i, (q.submit cb tracker).2.wait_semaphores.get? i = some q.semaphore ∧
          (q.submit cb tracker).2.wait_values.get? i = some q.target_value ∧
          (q.submit cb tracker).2.wait_stages.get? i = some TOP_OF_PIPE) := by
  refine ⟨rfl, Nat.lt_succ_self _, rfl, rfl, rfl, ?_⟩
  have hwaits : ((q.submit cb tracker).2.wait_semaphores =
      (upsert tracker.waits q.semaphore
        { value := some q.target_value, stage := TOP_OF_PIPE }).map (·.1)) ∧
      ((q.submit cb tracker).2.wait_values =
      (upsert tracker.waits q.semaphore
        { value := some q.target_value, stage := TOP_OF_PIPE }).map (fun p => (p.2.value).getD 0)) ∧
      ((q.submit cb tracker).2.wait_stages =
      (upsert tracker.waits q.semaphore
        { value := some q.target_value, stage := TOP_OF_PIPE }).map (fun p => p.2.stage)) := by
    refine ⟨?_, ?_, ?_⟩ <;>
      simp only [VkQueue.submit, SemaphoreTracker.register_wait, hw,
                 SemaphoreTracker.register_signal]
  have hmem := mem_upsert_self tracker.waits q.semaphore
    ({ value := some q.target_value, stage := TOP_OF_PIPE } : WaitInfo)
  obtain ⟨i, hi⟩ := List.mem_iff_get?.mp hmem
  refine ⟨i, ?_, ?_, ?_⟩
  · rw [hwaits.1, List.get?_map, hi]
    rfl
  · rw [hwaits.2.1, List.get?_map, hi]
    rfl
  · rw [hwaits.2.2, List.get?_map, hi]
    rfl

/-- C5 witness: the theorem at a concrete queue (semaphore 3, target 4)
and an empty tracker. -/
theorem vkqueue_submit_spec_witness :
    ((VkQueue.submit { semaphore := 3, free := [(9, 1)], last_sync := 0, target_value := 4 }
        77 { waits := [], signals := [] }).1.target_value = 5) ∧
    ((VkQueue.submit { semaphore := 3, free := [(9, 1)], last_sync := 0, target_value := 4 }
        77 { waits := [], signals := [] }).1.free = [(9, 1), (77, 5)]) ∧
    (∃ i, (VkQueue.submit { semaphore := 3, free := [(9, 1)], last_sync := 0, target_value := 4 }
        77 { waits := [], signals := [] }).2.wait_semaphores.get? i = some 3 ∧
      (VkQueue.submit { semaphore := 3, free := [(9, 1)], last_sync := 0, target_value := 4 }
        77 { waits := [], signals := [] }).2.wait_values.get? i = some 4 ∧
      (VkQueue.submit { semaphore := 3, free := [(9, 1)], last_sync := 0, target_value := 4 }
        77 { waits := [], signals := [] }).2.wait_stages.get? i = some TOP_OF_PIPE) := by
  have h := vkqueue_submit_spec
    { semaphore := 3, free := [(9, 1)], last_sync := 0, target_value := 4 }
    77 { waits := [], signals := [] } (by decide)
  exact ⟨h.1, h.2.2.1, h.2.2.2.2.2⟩

/-! ## Claim C8 — `present_image` error handling -/

/-- C8: `present_image` returns `BadImage` exactly when the image's surface
handle differs from the surface's; with matching surfaces it returns
`NoRender` exactly when the drawn flag is unset; otherwise it queues a
present waiting on the image's `presentable` semaphore and returns `Ok`
when the driver reports success without invalidation, `Invalidated` when
the driver reports a suboptimal/out-of-date swapchain (or any error,
folded by `unwrap_or(true)`). -/
theorem present_image_spec (surface : Surface) (image : SurfaceImage)
    (driver : Except Unit Bool) :
    (present_image surface image driver =
        Except.error SurfacePresentFailure.BadImage ↔ image.surface ≠ surface.surface) ∧
    (image.surface = surface.surface →
      (present_image surface image driver =
        Except.error SurfacePresentFailure.NoRender ↔ image.used = false)) ∧
    (image.surface = surface.surface → image.used = true →
      present_image surface image driver =
        Except.ok
          ((match driver with
            | .ok false => SurfacePresentSuccess.Ok
            | _ => SurfacePresentSuccess.Invalidated),
           [image.semaphores.presentable])) := by
  refine ⟨?_, ?_, ?_⟩
  · by_cases hs : image.surface = surface.surface
    · by_cases hu : image.used = true
      · simp [present_image, hs, hu]
      · simp [present_image, hs, Bool.eq_false_iff.mpr hu]
    · simp [present_image, hs]
  · intro hs
    by_cases hu : image.used = true
    · simp [present_image, hs, hu]
    · simp [present_image, hs, Bool.eq_false_iff.mpr hu]
  · intro hs hu
    cases driver with
    | ok b => cases b <;> simp [present_image, hs, hu]
    | error e => simp [present_image, hs, hu]

/-- C8 witness: the theorem at concrete surfaces/images — mismatched surface
handles give `BadImage`, an undrawn image gives `NoRender`, a drawn image
presents waiting on its `presentable` semaphore with `Ok` for a clean
driver answer. -/
theorem present_image_spec_witness :
    (present_image
        { surface := 1, swapchain := 2, format := 0, resolution := (8, 8), images := [],
          semaphores := [], next_semaphore := 0, images_acquired := 0 }
        { surface := 2, dims := (8, 8), image := 5, view := 6, format := 0, image_idx := 0,
          semaphores := { available := 30, presentable := 40 }, used := true }
        (Except.ok false) = Except.error SurfacePresentFailure.BadImage) ∧
    (present_image
        { surface := 1, swapchain := 2, format := 0, resolution := (8, 8), images := [],
          semaphores := [], next_semaphore := 0, images_acquired := 0 }
        { surface := 1, dims := (8, 8), image := 5, view := 6, format := 0, image_idx := 0,
          semaphores := { available := 30, presentable := 40 }, used := false }
        (Except.ok false) = Except.error SurfacePresentFailure.NoRender) ∧
    (present_image
        { surface := 1, swapchain := 2, format := 0, resolution := (8, 8), images := [],
          semaphores := [], next_semaphore := 0, images_acquired := 0 }
        { surface := 1, dims := (8, 8), image := 5, view := 6, format := 0, image_idx := 0,
          semaphores := { available := 30, presentable := 40 }, used := true }
        (Except.ok false) = Except.ok (SurfacePresentSuccess.Ok, [40])) := by
  refine ⟨?_, ?_, ?_⟩
  · exact (present_image_spec
      { surface := 1, swapchain := 2, format := 0, resolution := (8, 8), images := [],
        semaphores := [], next_semaphore := 0, images_acquired := 0 }
      { surface := 2, dims := (8, 8), image := 5, view := 6, format := 0, image_idx := 0,
        semaphores := { available := 30, presentable := 40 }, used := true }
      (Except.ok false)).1.mpr (by decide)
  · exact (present_image_spec
      { surface := 1, swapchain := 2, format := 0, resolution := (8, 8), images := [],
        semaphores := [], next_semaphore := 0, images_acquired := 0 }
      { surface := 1, dims := (8, 8), image := 5, view := 6, format := 0, image_idx := 0,
        semaphores := { available := 30, presentable := 40 }, used := false }
      (Except.ok false)).2.1 rfl |>.mpr rfl
  · exact (present_image_spec
      { surface := 1, swapchain := 2, format := 0, resolution := (8, 8), images := [],
        semaphores := [], next_semaphore := 0, images_acquired := 0 }
      { surface := 1, dims := (8, 8), image := 5, view := 6, format := 0, image_idx := 0,
        semaphores := { available := 30, presentable := 40 }, used := true }
      (Except.ok false)).2.2 rfl rfl

/-! ## Claim C9 — `update_surface` and the acquired-image counter -/

/-- `update_config` refuses with `ImagePending` exactly when the
`images_acquired` counter is non-zero (given non-zero dimensions). -/
theorem update_config_imagePending_iff (s : Surface) (config : SurfaceConfiguration)
    (caps : SurfaceCaps) (hw : config.width ≠ 0) (hh : config.height ≠ 0) :
    (s.update_config config caps =
        some (Except.error SurfaceUpdateError.ImagePending) ↔ s.images_acquired ≠ 0) := by
  simp only [Surface.update_config]
  rw [if_neg (by exact fun h => h.elim hw hh)]
  by_cases ha : s.images_acquired ≠ 0
  · simp [ha]
  · simp [ha]

/-- `acquire_image` leaves the `images_acquired` counter unchanged (the
code never increments it). -/
theorem acquire_image_keeps_counter (s : Surface) (didx : Nat) (s' : Surface)
    (img : SurfaceImage) (h : s.acquire_image didx = Except.ok (s', img)) :
    s'.images_acquired = s.images_acquired := by
  unfold Surface.acquire_image at h
  by_cases hc : s.images_acquired + 1 > s.images.length
  · rw [if_pos hc] at h
    cases h
  · rw [if_neg hc] at h
    cases h
    rfl

/-- C9: `acquire_image` never increments `images_acquired`, so
`update_surface` never returns `ImagePending`: on a two-image surface with
one image just acquired and outstanding, `update_config` happily recreates
the swapchain (clamping 5000×5000 to the 1920×1080 capability and falling
back to `IMMEDIATE` for an unsupported present mode) instead of refusing. -/
theorem update_after_acquire_not_imagePending :
    (∃ img, Surface.acquire_image
        { surface := 1, swapchain := 2, format := 3, resolution := (800, 600)
          images := [(10, 20), (11, 21)]
          semaphores := [{ available := 30, presentable := 40 },
                         { available := 31, presentable := 41 }]
          next_semaphore := 0, images_acquired := 0 } 0 =
      Except.ok
        ({ surface := 1, swapchain := 2, format := 3, resolution := (800, 600)
           images := [(10, 20), (11, 21)]
           semaphores := [{ available := 30, presentable := 40 },
                          { available := 31, presentable := 41 }]
           next_semaphore := 1, images_acquired := 0 }, img)) ∧
    Surface.update_config
        { surface := 1, swapchain := 2, format := 3, resolution := (800, 600)
          images := [(10, 20), (11, 21)]
          semaphores := [{ available := 30, presentable := 40 },
                         { available := 31, presentable := 41 }]
          next_semaphore := 1, images_acquired := 0 }
        { width := 5000, height := 5000, present_mode := 9, format := 3 }
        { max_extent := (1920, 1080), present_modes := [2, 3]
          new_images := [(50, 60)], new_semaphores := [{ available := 70, presentable := 80 }]
          new_swapchain := 99 } =
      some (Except.ok
        ({ surface := 1, swapchain := 99, format := 3, resolution := (1920, 1080)
           images := [(50, 60)]
           semaphores := [{ available := 70, presentable := 80 }]
           next_semaphore := 0, images_acquired := 0 }, PRESENT_MODE_IMMEDIATE)) ∧
    (some (Except.ok
        ({ surface := 1, swapchain := 99, format := 3, resolution := (1920, 1080)
           images := [(50, 60)]
           semaphores := [{ available := 70, presentable := 80 }]
           next_semaphore := 0, images_acquired := 0 }, PRESENT_MODE_IMMEDIATE)) :
        Option (Except SurfaceUpdateError (Surface × Nat))) ≠
      some (Except.error SurfaceUpdateError.ImagePending) := by
  refine ⟨⟨({ surface := 1, dims := (800, 600), image := 10, view := 20, format := 3
              image_idx := 0, semaphores := { available := 31, presentable := 41 }
              used := false } : SurfaceImage), by rfl⟩, by rfl, by simp⟩

/-! ## Claim C10 — `map_memory` synchronization -/

/-- C10: `map_memory(buffer, element)` removes the element's entry from the
global resource state; when an entry existed it blocks on the recorded
queue's semaphore for the recorded timeline value — with a kernel semaphore
wait exactly when that queue's current `target_value` equals the recorded
value, and a spin on the counter otherwise — and either way the block is
released exactly when the semaphore counter has reached the recorded
value, so the mapped pointer is only returned once the recorded prior GPU
use has completed; with no entry it does not block. -/
theorem map_memory_spec (resc : ResourceState) (queueOf : QueueType → VkQueue)
    (buffer idx aligned : Nat) :
    ((map_memory resc queueOf buffer idx aligned).1.buffers (buffer, idx) = none) ∧
    (∀ old, resc.buffers (buffer, idx) = some old →
      ∃ b, (map_memory resc queueOf buffer idx aligned).2.1 = some b ∧
        b.semaphore = (queueOf old.queue).semaphore ∧
        b.value = old.value ∧
        (b.kind = WaitKind.kernelWait ↔ (queueOf old.queue).target_value = old.value) ∧
        (∀ counter, blockDone b counter = true ↔ old.value ≤ counter)) ∧
    (resc.buffers (buffer, idx) = none →
      (map_memory resc queueOf buffer idx aligned).2.1 = none) ∧
    ((map_memory resc queueOf buffer idx aligned).2.2 = aligned * idx) := by
  refine ⟨?_, ?_, ?_, ?_⟩
  · simp only [map_memory, ResourceState.set_buffer]
    cases resc.buffers (buffer, idx) <;> simp
  · intro old hold
    simp only [map_memory, ResourceState.set_buffer, hold]
    refine ⟨_, rfl, rfl, rfl, ?_, ?_⟩
    · by_cases hk : (queueOf old.queue).target_value = old.value
      · simp [hk]
      · simp only [hk, if_neg, ite_false]
        exact ⟨fun h => WaitKind.noConfusion h, False.elim⟩
    · intro counter
      by_cases hk : (queueOf old.queue).target_value = old.value
      · simp [blockDone, hk]
      · simp only [hk, if_neg, ite_false, blockDone]
        simp [Nat.not_lt]
  · intro hnone
    simp only [map_memory, ResourceState.set_buffer, hnone]
  · simp only [map_memory, ResourceState.set_buffer]
    cases resc.buffers (buffer, idx) <;> rfl

/-- C10 witness: the theorem at a concrete state — a buffer element last
used on `Transfer` at value 7 while `Transfer`'s target is 9 makes
`map_memory` spin until the counter reaches 7 (released at counter 7, not
at 6), and the entry is removed. -/
theorem map_memory_spec_witness :
    ((map_memory
        { buffers := fun k => if k = (4, 2) then
            some { queue := QueueType.Transfer, value := 7, layout := 0 } else none
          images := fun _ => none }
        (fun _ => { semaphore := 11, free := [], last_sync := 0, target_value := 9 })
        4 2 256).1.buffers (4, 2) = none) ∧
    (∃ b, (map_memory
        { buffers := fun k => if k = (4, 2) then
            some { queue := QueueType.Transfer, value := 7, layout := 0 } else none
          images := fun _ => none }
        (fun _ => { semaphore := 11, free := [], last_sync := 0, target_value := 9 })
        4 2 256).2.1 = some b ∧ b.semaphore = 11 ∧ b.value = 7 ∧
      b.kind ≠ WaitKind.kernelWait ∧
      blockDone b 6 = false ∧ blockDone b 7 = true) := by
  have h := map_memory_spec
    { buffers := fun k => if k = (4, 2) then
        some { queue := QueueType.Transfer, value := 7, layout := 0 } else none
      images := fun _ => none }
    (fun _ => { semaphore := 11, free := [], last_sync := 0, target_value := 9 })
    4 2 256
  obtain ⟨b, hb, hsem, hval, hkind, hdone⟩ :=
    h.2.1 { queue := QueueType.Transfer, value := 7, layout := 0 } (by decide)
  refine ⟨h.1, b, hb, hsem, hval, ?_, ?_, ?_⟩
  · intro hc
    exact absurd (hkind.mp hc) (by decide)
  · cases hdn : blockDone b 6
    · rfl
    · exact absurd ((hdone 6).mp hdn) (by decide)
  · exact (hdone 7).mpr (by decide)

/-! ## Claim C6 — dispatch descriptor-set gathering -/

theorem covFrom_some_bounds (sets : List Nat) (slot0 sl s : Nat)
    (h : covFrom slot0 sets sl = some s) :
    slot0 ≤ sl ∧ sl < slot0 + sets.length := by
  induction sets generalizing slot0 with
  | nil => cases h
  | cons x rest ih =>
    by_cases hsl : sl = slot0
    · subst hsl
      simp only [List.length_cons]
      omega
    · rw [covFrom, if_neg hsl] at h
      have := ih (slot0 + 1) h
      simp only [List.length_cons]
      omega

theorem getD_set_true (bound : List Bool) (i sl : Nat) :
    (bound.set i true).getD sl false =
      if sl = i ∧ i < bound.length then true else bound.getD sl false := by
  by_cases hc : sl = i ∧ i < bound.length
  · rw [if_pos hc]
    obtain ⟨h1, h2⟩ := hc
    subst h1
    rw [List.getD_eq_get?, List.get?_set_eq]
    cases hg : bound.get? sl with
    | none =>
        rw [List.get?_eq_getElem?] at hg
        rw [List.getElem?_eq_none_iff] at hg
        omega
    | some v => rfl
  · rw [if_neg hc]
    by_cases hsl : sl = i
    · subst hsl
      have hge : ¬ sl < bound.length := fun hl => hc ⟨rfl, hl⟩
      rw [List.getD_eq_get?, List.get?_set_eq, List.getD_eq_get?]
      cases hg : bound.get? sl with
      | none => rfl
      | some v =>
          rw [List.get?_eq_getElem?] at hg
          obtain ⟨hlt, _⟩ := List.getElem?_eq_some_iff.mp hg
          exact absurd hlt hge
    · rw [List.getD_eq_get?, List.get?_set_ne _ _ (fun h => hsl h.symm), List.getD_eq_get?]

theorem countTrue_set_true (bound : List Bool) (i : Nat)
    (hf : bound.getD i false = false) (hl : i < bound.length) :
    ((bound.set i true).filter (fun b => b)).length =
      (bound.filter (fun b => b)).length + 1 := by
  induction bound generalizing i with
  | nil => cases hl
  | cons b t ih =>
    cases i with
    | zero =>
        rw [List.getD_cons_zero] at hf
        subst hf
        simp [List.set_cons_zero, List.filter_cons]
    | succ n =>
        rw [List.getD_cons_succ] at hf
        have hln : n < t.length := by simpa using hl
        rw [List.set_cons_succ]
        cases b <;> simp [List.filter_cons, ih n hf hln]

theorem all_true_getD (bound : List Bool)
    (h : (bound.filter (fun b => b)).length = bound.length)
    (sl : Nat) (hsl : sl < bound.length) : bound.getD sl false = true := by
  have hall := List.filter_length_eq_length.mp h
  rw [List.getD_eq_get?]
  cases hg : bound.get? sl with
  | none =>
      rw [List.get?_eq_getElem?, List.getElem?_eq_none_iff] at hg
      omega
  | some v =>
      have hmem : v ∈ bound := List.get?_mem hg
      have := hall v hmem
      rw [this]
      rfl

theorem bindSetsLoop_spec (sets : List Nat) (slot0 : Nat) (bound : List Bool)
    (total : Nat) (gathered : List (Nat × Nat))
    (hWF : slot0 + sets.length ≤ bound.length)
    (htotal : total = (bound.filter (fun b => b)).length) :
    ((bindSetsLoop bound total gathered slot0 sets).1.length = bound.length) ∧
    ((bindSetsLoop bound total gathered slot0 sets).2.1 =
      (((bindSetsLoop bound total gathered slot0 sets).1).filter (fun b => b)).length) ∧
    (∀ sl, (bindSetsLoop bound total gathered slot0 sets).1.getD sl false =
      (bound.getD sl false || (covFrom slot0 sets sl).isSome)) ∧
    (∀ sl s, (sl, s) ∈ (bindSetsLoop bound total gathered slot0 sets).2.2 ↔
      ((sl, s) ∈ gathered ∨
        (bound.getD sl false = false ∧ covFrom slot0 sets sl = some s))) := by
  induction sets generalizing slot0 bound total gathered with
  | nil =>
    refine ⟨rfl, htotal, ?_, ?_⟩
    · intro sl
      simp [bindSetsLoop, covFrom]
    · intro sl s
      simp [bindSetsLoop, covFrom]
  | cons x rest ih =>
    by_cases hb : bound.getD slot0 false = true
    · have hWF' : slot0 + 1 + rest.length ≤ bound.length := by
        simp only [List.length_cons] at hWF
        omega
      have hrec := ih (slot0 + 1) bound total gathered hWF' htotal
      have hunfold : bindSetsLoop bound total gathered slot0 (x :: rest) =
          bindSetsLoop bound total gathered (slot0 + 1) rest := by
        rw [bindSetsLoop, if_pos hb]
      rw [hunfold]
      refine ⟨hrec.1, hrec.2.1, ?_, ?_⟩
      · intro sl
        rw [hrec.2.2.1 sl]
        by_cases hsl : sl = slot0
        · subst hsl
          rw [hb]
          rfl
        · rw [covFrom, if_neg hsl]
      · intro sl s
        rw [hrec.2.2.2 sl s]
        by_cases hsl : sl = slot0
        · subst hsl
          rw [hb]
          constructor
          · rintro (h | ⟨hc, _⟩)
            · exact Or.inl h
            · cases hc
          · rintro (h | ⟨hc, _⟩)
            · exact Or.inl h
            · cases hc
        · rw [covFrom, if_neg hsl]
    · have hb' : bound.getD slot0 false = false := by
        cases h : bound.getD slot0 false
        · rfl
        · exact absurd h hb
      have hlt : slot0 < bound.length := by
        simp only [List.length_cons] at hWF
        omega
      have hWF' : slot0 + 1 + rest.length ≤ (bound.set slot0 true).length := by
        rw [List.length_set]
        simp only [List.length_cons] at hWF
        omega
      have htotal' : total + 1 = ((bound.set slot0 true).filter (fun b => b)).length := by
        rw [countTrue_set_true bound slot0 hb' hlt, htotal]
      have hrec := ih (slot0 + 1) (bound.set slot0 true) (total + 1)
        (gathered ++ [(slot0, x)]) hWF' htotal'
      have hunfold : bindSetsLoop bound total gathered slot0 (x :: rest) =
          bindSetsLoop (bound.set slot0 true) (total + 1) (gathered ++ [(slot0, x)])
            (slot0 + 1) rest := by
        rw [bindSetsLoop, if_neg (by rw [hb']; exact Bool.false_ne_true)]
      rw [hunfold]
      have hlen : (bound.set slot0 true).length = bound.length := List.length_set _ _ _
      refine ⟨hrec.1.trans hlen, hrec.2.1, ?_, ?_⟩
      · intro sl
        rw [hrec.2.2.1 sl, getD_set_true]
        by_cases hsl : sl = slot0
        · subst hsl
          rw [if_pos ⟨rfl, hlt⟩, covFrom, if_pos rfl]
          simp
        · rw [if_neg (fun hc => hsl hc.1), covFrom, if_neg hsl]
      · intro sl s
        rw [hrec.2.2.2 sl s, getD_set_true]
        by_cases hsl : sl = slot0
        · subst hsl
          rw [if_pos ⟨rfl, hlt⟩, covFrom, if_pos rfl]
          simp only [List.mem_append, List.mem_singleton, Prod.mk.injEq, true_and]
          constructor
          · rintro ((h | h) | ⟨hc, _⟩)
            · exact Or.inl h
            · exact Or.inr ⟨hb', by rw [h]⟩
            · cases hc
          · rintro (h | ⟨_, hc⟩)
            · exact Or.inl (Or.inl h)
            · exact Or.inl (Or.inr (Option.some_inj.mp hc).symm)
        · rw [if_neg (fun hc => hsl hc.1), covFrom, if_neg hsl]
          constructor
          · rintro (h | ⟨hc, hcov⟩)
            · rcases List.mem_append.mp h with h | h
              · exact Or.inl h
              · rcases List.mem_singleton.mp h with h
                exact absurd (congrArg Prod.fst h) (by simpa using hsl)
            · exact Or.inr ⟨hc, hcov⟩
          · rintro (h | ⟨hc, hcov⟩)
            · exact Or.inl (List.mem_append.mpr (Or.inl h))
            · exact Or.inr ⟨hc, hcov⟩

theorem coveringSetAt_some (cmds : List Cmd) (k sl s : Nat)
    (h : coveringSetAt cmds k sl = some s) :
    ∃ first sets, cmds.get? k = some (Cmd.bindDescriptorSets first sets) ∧
      covFrom first sets sl = some s := by
  unfold coveringSetAt at h
  cases hg : cmds.get? k with
  | none => rw [hg] at h; cases h
  | some c =>
    cases c with
    | bindDescriptorSets first sets =>
        rw [hg] at h
        exact ⟨first, sets, rfl, h⟩
    | bindComputePipeline n => rw [hg] at h; cases h
    | beginComputePass => rw [hg] at h; cases h
    | dispatch => rw [hg] at h; cases h
    | other => rw [hg] at h; cases h

theorem mostRecentCovering_pos (cmds : List Cmd) (steps : Nat) :
    ∀ (j sl s : Nat), mostRecentCovering cmds steps j sl = some s →
    ∃ k, j - steps ≤ k ∧ k ≤ j ∧ coveringSetAt cmds k sl = some s := by
  induction steps with
  | zero =>
    intro j sl s h
    exact ⟨j, Nat.le_refl _, Nat.le_refl _, h⟩
  | succ steps ih =>
    intro j sl s h
    rw [mostRecentCovering] at h
    cases hc : coveringSetAt cmds j sl with
    | some s0 =>
        rw [hc] at h
        cases h
        exact ⟨j, Nat.sub_le _ _, Nat.le_refl _, hc⟩
    | none =>
        rw [hc] at h
        obtain ⟨k, hk1, hk2, hk3⟩ := ih (j - 1) sl s h
        exact ⟨k, by omega, by omega, hk3⟩

theorem filter_replicate_false (n : Nat) :
    (List.replicate n false).filter (fun b => b) = [] := by
  induction n with
  | zero => rfl
  | succ n ih => simp [List.replicate, List.filter_cons, ih]

theorem getD_replicate_false (n sl : Nat) :
    (List.replicate n false).getD sl false = false := by
  induction n generalizing sl with
  | zero => rfl
  | succ n ih =>
    cases sl with
    | zero => rfl
    | succ m => simp [List.replicate, ih m]

theorem gatherLoop_break (cmds : List Cmd) (steps j : Nat)
    (st : List Bool × Nat × List (Nat × Nat)) (h : st.2.1 = st.1.length) :
    gatherLoop cmds steps j st = st := by
  cases steps <;> rw [gatherLoop, if_pos h]

theorem gatherLoop_spec (cmds : List Cmd) (steps : Nat) :
    ∀ (j : Nat) (bound : List Bool) (total : Nat) (gathered : List (Nat × Nat)),
    (∀ k first sets, j - steps ≤ k → k ≤ j →
      cmds.get? k = some (Cmd.bindDescriptorSets first sets) →
      first + sets.length ≤ bound.length) →
    total = (bound.filter (fun b => b)).length →
    (∀ sl s, (sl, s) ∈ gathered → bound.getD sl false = true) →
    ∀ sl s,
      ((sl, s) ∈ (gatherLoop cmds steps j (bound, total, gathered)).2.2 ↔
        ((sl, s) ∈ gathered ∨
          (bound.getD sl false = false ∧ mostRecentCovering cmds steps j sl = some s))) := by
  induction steps with
  | zero =>
    intro j bound total gathered hWF htotal hbg sl s
    by_cases htb : total = bound.length
    · rw [gatherLoop_break cmds 0 j (bound, total, gathered) htb]
      constructor
      · exact Or.inl
      · rintro (h | ⟨hfalse, hmr⟩)
        · exact h
        · obtain ⟨k, hk1, hk2, hk3⟩ := mostRecentCovering_pos cmds 0 j sl s hmr
          obtain ⟨first, sets, hcmd, hcov⟩ := coveringSetAt_some cmds k sl s hk3
          obtain ⟨hb1, hb2⟩ := covFrom_some_bounds sets first sl s hcov
          have hlen : first + sets.length ≤ bound.length := hWF k first sets hk1 hk2 hcmd
          have : bound.getD sl false = true := by
            apply all_true_getD bound (by rw [← htotal, htb]) sl
            omega
          rw [this] at hfalse
          cases hfalse
    · have hunf : gatherLoop cmds 0 j (bound, total, gathered) =
          match cmds.get? j with
          | some (Cmd.bindDescriptorSets first sets) =>
              bindSetsLoop bound total gathered first sets
          | _ => (bound, total, gathered) := by
        rw [gatherLoop, if_neg htb]
      rw [hunf]
      have hmr0 : mostRecentCovering cmds 0 j sl = coveringSetAt cmds j sl := rfl
      cases hg : cmds.get? j with
      | some c =>
        cases c with
        | bindDescriptorSets first sets =>
            have hbs := bindSetsLoop_spec sets first bound total gathered
              (hWF j first sets (Nat.sub_le _ _) (Nat.le_refl _) hg) htotal
            rw [hbs.2.2.2 sl s, hmr0]
            unfold coveringSetAt
            rw [hg]
        | bindComputePipeline n =>
            rw [hmr0]
            unfold coveringSetAt
            rw [hg]
            simp
        | beginComputePass =>
            rw [hmr0]
            unfold coveringSetAt
            rw [hg]
            simp
        | dispatch =>
            rw [hmr0]
            unfold coveringSetAt
            rw [hg]
            simp
        | other =>
            rw [hmr0]
            unfold coveringSetAt
            rw [hg]
            simp
      | none =>
          rw [hmr0]
          unfold coveringSetAt
          rw [hg]
          simp
  | succ steps ih =>
    intro j bound total gathered hWF htotal hbg sl s
    by_cases htb : total = bound.length
    · rw [gatherLoop_break cmds (steps + 1) j (bound, total, gathered) htb]
      constructor
      · exact Or.inl
      · rintro (h | ⟨hfalse, hmr⟩)
        · exact h
        · obtain ⟨k, hk1, hk2, hk3⟩ := mostRecentCovering_pos cmds (steps + 1) j sl s hmr
          obtain ⟨first, sets, hcmd, hcov⟩ := coveringSetAt_some cmds k sl s hk3
          obtain ⟨hb1, hb2⟩ := covFrom_some_bounds sets first sl s hcov
          have hlen : first + sets.length ≤ bound.length := hWF k first sets hk1 hk2 hcmd
          have : bound.getD sl false = true := by
            apply all_true_getD bound (by rw [← htotal, htb]) sl
            omega
          rw [this] at hfalse
          cases hfalse
    · have hunf : gatherLoop cmds (steps + 1) j (bound, total, gathered) =
          gatherLoop cmds steps (j - 1)
            (match cmds.get? j with
             | some (Cmd.bindDescriptorSets first sets) =>
                 bindSetsLoop bound total gathered first sets
             | _ => (bound, total, gathered)) := by
        rw [gatherLoop, if_neg htb]
      rw [hunf]
      have hmrs : mostRecentCovering cmds (steps + 1) j sl =
          match coveringSetAt cmds j sl with
          | some s0 => some s0
          | none => mostRecentCovering cmds steps (j - 1) sl := rfl
      cases hg : cmds.get? j with
      | some c =>
        cases c with
        | bindDescriptorSets first sets =>
            have hbs := bindSetsLoop_spec sets first bound total gathered
              (hWF j first sets (Nat.sub_le _ _) (Nat.le_refl _) hg) htotal
            set st2 := bindSetsLoop bound total gathered first sets with hst2
            have hWF' : ∀ k first' sets', j - 1 - steps ≤ k → k ≤ j - 1 →
                cmds.get? k = some (Cmd.bindDescriptorSets first' sets') →
                first' + sets'.length ≤ st2.1.length := by
              intro k f' s' hk1 hk2 hcm
              rw [hbs.1]
              exact hWF k f' s' (by omega) (by omega) hcm
            have hbg' : ∀ sl' s', (sl', s') ∈ st2.2.2 → st2.1.getD sl' false = true := by
              intro sl' s' hmem
              rcases (hbs.2.2.2 sl' s').mp hmem with h | ⟨hf, hcov⟩
              · rw [hbs.2.2.1 sl']
                rw [hbg sl' s' h]
                rfl
              · rw [hbs.2.2.1 sl', hcov]
                simp
            have hrec := ih (j - 1) st2.1 st2.2.1 st2.2.2 hWF' hbs.2.1 hbg' sl s
            rw [show (st2.1, st2.2.1, st2.2.2) = st2 from rfl] at hrec
            rw [hrec, hbs.2.2.2 sl s, hmrs]
            unfold coveringSetAt
            rw [hg, hbs.2.2.1 sl]
            dsimp only
            cases hcov : covFrom first sets sl with
            | some s0 =>
                simp only [Option.isSome_some, Bool.or_true]
                constructor
                · rintro ((h | ⟨hf, he⟩) | ⟨hf, _⟩)
                  · exact Or.inl h
                  · exact Or.inr ⟨hf, he⟩
                  · cases hf
                · rintro (h | ⟨hf, he⟩)
                  · exact Or.inl (Or.inl h)
                  · exact Or.inl (Or.inr ⟨hf, he⟩)
            | none =>
                simp only [Option.isSome_none, Bool.or_false]
                constructor
                · rintro ((h | ⟨_, he⟩) | ⟨hf, hmr⟩)
                  · exact Or.inl h
                  · cases he
                  · exact Or.inr ⟨hf, hmr⟩
                · rintro (h | ⟨hf, hmr⟩)
                  · exact Or.inl (Or.inl h)
                  · exact Or.inr ⟨hf, hmr⟩
        | bindComputePipeline n =>
            have hrec := ih (j - 1) bound total gathered
              (fun k f' s' hk1 hk2 hcm => hWF k f' s' (by omega) (by omega) hcm)
              htotal hbg sl s
            rw [hrec, hmrs]
            unfold coveringSetAt
            rw [hg]
        | beginComputePass =>
            have hrec := ih (j - 1) bound total gathered
              (fun k f' s' hk1 hk2 hcm => hWF k f' s' (by omega) (by omega) hcm)
              htotal hbg sl s
            rw [hrec, hmrs]
            unfold coveringSetAt
            rw [hg]
        | dispatch =>
            have hrec := ih (j - 1) bound total gathered
              (fun k f' s' hk1 hk2 hcm => hWF k f' s' (by omega) (by omega) hcm)
              htotal hbg sl s
            rw [hrec, hmrs]
            unfold coveringSetAt
            rw [hg]
        | other =>
            have hrec := ih (j - 1) bound total gathered
              (fun k f' s' hk1 hk2 hcm => hWF k f' s' (by omega) (by omega) hcm)
              htotal hbg sl s
            rw [hrec, hmrs]
            unfold coveringSetAt
            rw [hg]
      | none =>
          have hrec := ih (j - 1) bound total gathered
            (fun k f' s' hk1 hk2 hcm => hWF k f' s' (by omega) (by omega) hcm)
            htotal hbg sl s
          rw [hrec, hmrs]
          unfold coveringSetAt
          rw [hg]

theorem findBoundPipeline_sound (cmds : List Cmd) :
    ∀ (index idx n : Nat), findBoundPipeline cmds index = some (idx, n) →
      idx ≤ index ∧ cmds.get? idx = some (Cmd.bindComputePipeline n) ∧
        ∀ k, idx < k → k ≤ index →
          (∀ m, cmds.get? k ≠ some (Cmd.bindComputePipeline m)) ∧
          cmds.get? k ≠ some Cmd.beginComputePass := by
  intro index
  induction index with
  | zero =>
    intro idx n h
    cases hg : cmds.get? 0 with
    | none => rw [findBoundPipeline, hg] at h; cases h
    | some c =>
      cases c with
      | bindComputePipeline m =>
          rw [findBoundPipeline, hg] at h
          simp only [Option.some.injEq, Prod.mk.injEq] at h
          obtain ⟨h1, h2⟩ := h
          subst h1
          subst h2
          exact ⟨Nat.le_refl 0, hg, fun k hk1 hk2 => absurd hk2 (by omega)⟩
      | beginComputePass => rw [findBoundPipeline, hg] at h; cases h
      | bindDescriptorSets f s => rw [findBoundPipeline, hg] at h; cases h
      | dispatch => rw [findBoundPipeline, hg] at h; cases h
      | other => rw [findBoundPipeline, hg] at h; cases h
  | succ i ih =>
    intro idx n h
    cases hg : cmds.get? (i + 1) with
    | none =>
        rw [findBoundPipeline, hg] at h
        obtain ⟨h1, h2, h3⟩ := ih idx n h
        refine ⟨Nat.le_succ_of_le h1, h2, ?_⟩
        intro k hk1 hk2
        by_cases hk : k = i + 1
        · subst hk
          exact ⟨fun m hc => (by rw [hg] at hc; cases hc),
                 fun hc => (by rw [hg] at hc; cases hc)⟩
        · exact h3 k hk1 (by omega)
    | some c =>
      cases c with
      | bindComputePipeline m =>
          rw [findBoundPipeline, hg] at h
          simp only [Option.some.injEq, Prod.mk.injEq] at h
          obtain ⟨h1, h2⟩ := h
          subst h1
          subst h2
          exact ⟨Nat.le_refl _, hg, fun k hk1 hk2 => absurd hk2 (by omega)⟩
      | beginComputePass => rw [findBoundPipeline, hg] at h; cases h
      | bindDescriptorSets f s =>
          rw [findBoundPipeline, hg] at h
          obtain ⟨h1, h2, h3⟩ := ih idx n h
          refine ⟨Nat.le_succ_of_le h1, h2, ?_⟩
          intro k hk1 hk2
          by_cases hk : k = i + 1
          · subst hk
            exact ⟨fun m hc => (by rw [hg] at hc; cases hc),
                   fun hc => (by rw [hg] at hc; cases hc)⟩
          · exact h3 k hk1 (by omega)
      | dispatch =>
          rw [findBoundPipeline, hg] at h
          obtain ⟨h1, h2, h3⟩ := ih idx n h
          refine ⟨Nat.le_succ_of_le h1, h2, ?_⟩
          intro k hk1 hk2
          by_cases hk : k = i + 1
          · subst hk
            exact ⟨fun m hc => (by rw [hg] at hc; cases hc),
                   fun hc => (by rw [hg] at hc; cases hc)⟩
          · exact h3 k hk1 (by omega)
      | other =>
          rw [findBoundPipeline, hg] at h
          obtain ⟨h1, h2, h3⟩ := ih idx n h
          refine ⟨Nat.le_succ_of_le h1, h2, ?_⟩
          intro k hk1 hk2
          by_cases hk : k = i + 1
          · subst hk
            exact ⟨fun m hc => (by rw [hg] at hc; cases hc),
                   fun hc => (by rw [hg] at hc; cases hc)⟩
          · exact h3 k hk1 (by omega)

theorem findBoundPipeline_complete (cmds : List Cmd) :
    ∀ (index idx n : Nat), idx ≤ index →
      cmds.get? idx = some (Cmd.bindComputePipeline n) →
      (∀ k, idx < k → k ≤ index →
        (∀ m, cmds.get? k ≠ some (Cmd.bindComputePipeline m)) ∧
        cmds.get? k ≠ some Cmd.beginComputePass) →
      findBoundPipeline cmds index = some (idx, n) := by
  intro index
  induction index with
  | zero =>
    intro idx n hle hg _
    have h0 : idx = 0 := Nat.le_zero.mp hle
    subst h0
    rw [findBoundPipeline, hg]
  | succ i ih =>
    intro idx n hle hg hno
    by_cases hk : idx = i + 1
    · subst hk
      rw [findBoundPipeline, hg]
    · have hle' : idx ≤ i := by omega
      have h1 := hno (i + 1) (by omega) (Nat.le_refl _)
      cases hgi : cmds.get? (i + 1) with
      | none =>
          rw [findBoundPipeline, hgi]
          exact ih idx n hle' hg (fun k hk1 hk2 => hno k hk1 (by omega))
      | some c =>
        cases c with
        | bindComputePipeline m => exact absurd hgi (h1.1 m)
        | beginComputePass => exact absurd hgi h1.2
        | bindDescriptorSets f s =>
            rw [findBoundPipeline, hgi]
            exact ih idx n hle' hg (fun k hk1 hk2 => hno k hk1 (by omega))
        | dispatch =>
            rw [findBoundPipeline, hgi]
            exact ih idx n hle' hg (fun k hk1 hk2 => hno k hk1 (by omega))
        | other =>
            rw [findBoundPipeline, hgi]
            exact ih idx n hle' hg (fun k hk1 hk2 => hno k hk1 (by omega))

/-- **C6.** For a `Dispatch` at `index`, tracking walks backward to the
nearest preceding `BindComputePipeline`: it tracks nothing when no pipeline
is found or a `BeginComputePass` is encountered first (parts 1–3, with part
3 characterising the walk exactly); otherwise (part 4), when every
`BindDescriptorSets` between the pipeline bind and the dispatch fits the
pipeline's `n` layout slots, the single submitted scope is built from
exactly the gathered `(slot, set)` pairs, and a pair is gathered iff it is
the most recent bind covering that slot. -/
theorem track_dispatch_spec (cmds : List Cmd) (index idx n : Nat) :
    (findBoundPipeline cmds index = none → track_dispatch cmds index = none) ∧
    (∀ j, j ≤ index → cmds.get? j = some Cmd.beginComputePass →
      (∀ k, j < k → k ≤ index → ∀ m, cmds.get? k ≠ some (Cmd.bindComputePipeline m)) →
      track_dispatch cmds index = none) ∧
    (findBoundPipeline cmds index = some (idx, n) ↔
      (idx ≤ index ∧ cmds.get? idx = some (Cmd.bindComputePipeline n) ∧
        ∀ k, idx < k → k ≤ index →
          (∀ m, cmds.get? k ≠ some (Cmd.bindComputePipeline m)) ∧
          cmds.get? k ≠ some Cmd.beginComputePass)) ∧
    (findBoundPipeline cmds index = some (idx, n) →
      (∀ k first sets, idx ≤ k → k ≤ index →
        cmds.get? k = some (Cmd.bindDescriptorSets first sets) →
        first + sets.length ≤ n) →
      track_dispatch cmds index = some (trackGathered cmds idx n index) ∧
      ∀ sl s, ((sl, s) ∈ trackGathered cmds idx n index ↔
        mostRecentCovering cmds (index - idx) index sl = some s)) := by
  refine ⟨?_, ?_, ?_, ?_⟩
  · intro h
    unfold track_dispatch
    rw [h]
  · intro j hj hpass hnobind
    cases hfb : findBoundPipeline cmds index with
    | none =>
        unfold track_dispatch
        rw [hfb]
    | some p =>
        obtain ⟨idx', n'⟩ := p
        obtain ⟨h1, h2, h3⟩ := findBoundPipeline_sound cmds index idx' n' hfb
        rcases Nat.lt_trichotomy idx' j with hlt | heq | hgt
        · exact absurd hpass (h3 j hlt hj).2
        · subst heq
          rw [h2] at hpass
          cases hpass
        · exact absurd h2 (hnobind idx' hgt h1 n')
  · exact ⟨findBoundPipeline_sound cmds index idx n,
      fun h => findBoundPipeline_complete cmds index idx n h.1 h.2.1 h.2.2⟩
  · intro hfb hWF
    obtain ⟨hle, _, _⟩ := findBoundPipeline_sound cmds index idx n hfb
    refine ⟨?_, ?_⟩
    · unfold track_dispatch
      rw [hfb]
    · intro sl s
      have hWF' : ∀ k first sets, index - (index - idx) ≤ k → k ≤ index →
          cmds.get? k = some (Cmd.bindDescriptorSets first sets) →
          first + sets.length ≤ (List.replicate n false).length := by
        intro k f s' hk1 hk2 hg
        rw [List.length_replicate]
        exact hWF k f s' (by omega) hk2 hg
      have h := gatherLoop_spec cmds (index - idx) index (List.replicate n false) 0 []
        hWF' (by rw [filter_replicate_false]; rfl)
        (fun sl' s' h => absurd h (List.not_mem_nil _)) sl s
      unfold trackGathered
      rw [h, getD_replicate_false]
      constructor
      · rintro (h | ⟨_, hmr⟩)
        · exact absurd h (List.not_mem_nil _)
        · exact hmr
      · intro hmr
        exact Or.inr ⟨rfl, hmr⟩

theorem track_dispatch_spec_witness :
    track_dispatch
        [Cmd.bindComputePipeline 2, Cmd.bindDescriptorSets 0 [10],
          Cmd.bindDescriptorSets 1 [11], Cmd.dispatch] 3 =
      some (trackGathered
        [Cmd.bindComputePipeline 2, Cmd.bindDescriptorSets 0 [10],
          Cmd.bindDescriptorSets 1 [11], Cmd.dispatch] 0 2 3) ∧
    trackGathered
        [Cmd.bindComputePipeline 2, Cmd.bindDescriptorSets 0 [10],
          Cmd.bindDescriptorSets 1 [11], Cmd.dispatch] 0 2 3 = [(1, 11), (0, 10)] ∧
    ((1, 11) ∈ trackGathered
        [Cmd.bindComputePipeline 2, Cmd.bindDescriptorSets 0 [10],
          Cmd.bindDescriptorSets 1 [11], Cmd.dispatch] 0 2 3 ↔
      mostRecentCovering
        [Cmd.bindComputePipeline 2, Cmd.bindDescriptorSets 0 [10],
          Cmd.bindDescriptorSets 1 [11], Cmd.dispatch] 3 3 1 = some 11) := by
  have h := (track_dispatch_spec
      [Cmd.bindComputePipeline 2, Cmd.bindDescriptorSets 0 [10],
        Cmd.bindDescriptorSets 1 [11], Cmd.dispatch] 3 0 2).2.2.2
    (by decide)
    (by
      intro k f s _ hk2 hg
      match k, hk2 with
      | 0, _ => cases hg
      | 1, _ =>
          simp only [List.get?, Option.some.injEq, Cmd.bindDescriptorSets.injEq] at hg
          obtain ⟨h1, h2⟩ := hg
          subst h1
          subst h2
          decide
      | 2, _ =>
          simp only [List.get?, Option.some.injEq, Cmd.bindDescriptorSets.injEq] at hg
          obtain ⟨h1, h2⟩ := hg
          subst h1
          subst h2
          decide
      | 3, _ => cases hg)
  exact ⟨h.1, by decide, h.2 1 11⟩

end Pal
